import Mathlib

/-!
Verification development for the gfagraphs repository (GFA pangenome-graph
library).  The Python sources under `src/pgGraphs` (current module) and
`src/gfagraphs` (older module, still shipped) are shallowly embedded below:
Python dicts become association lists that keep insertion order, Python
exceptions become `Except` errors, and the dynamic values handled by the
optional-tag codec become the inductive type `Gfa.PyVal`.
-/

namespace Gfa

/-- Python exceptions raised by the embedded code, by class (a message is kept
where a claim inspects it). -/
inductive PyErr where
  | osError (msg : String)
  | ioError (msg : String)
  | valueError (msg : String)
  | keyError
  | notImplementedError
  | nameError
  | typeError
  | indexError
  | attributeError
  deriving DecidableEq, Repr

/-! ### Decimal integer text (Python `str(int)` / `int(str)`)

`pyNatRepr`/`pyIntRepr` model Python's decimal rendering of integers and
`parsePyInt` models `int(raw)` on plain decimal literals (the only inputs the
claims exercise; Python's additional tolerance for surrounding whitespace and
underscores is not reached by any claim). -/

/-- The decimal digit character for `d < 10`. -/
def digitChar (d : Nat) : Char :=
  match d with
  | 0 => '0' | 1 => '1' | 2 => '2' | 3 => '3' | 4 => '4'
  | 5 => '5' | 6 => '6' | 7 => '7' | 8 => '8' | 9 => '9'
  | _ => '0'

/-- Numeric value of a decimal digit character; `10` marks a non-digit. -/
def digitVal (c : Char) : Nat :=
  match c with
  | '0' => 0 | '1' => 1 | '2' => 2 | '3' => 3 | '4' => 4
  | '5' => 5 | '6' => 6 | '7' => 7 | '8' => 8 | '9' => 9
  | _ => 10

/-- `c` is one of `'0'..'9'`. -/
def isDigitCh (c : Char) : Bool := digitVal c < 10

/-- Digits of `n`, most significant first, computed with explicit fuel so that
the kernel can evaluate it on concrete numbers (`fuel ≥ n` suffices). -/
def pyNatReprAux : Nat → Nat → List Char
  | 0, _ => []
  | fuel + 1, n =>
    if n = 0 then [] else pyNatReprAux fuel (n / 10) ++ [digitChar (n % 10)]

/-- Decimal rendering of a natural number (Python `str(n)` for `n ≥ 0`). -/
def pyNatRepr (n : Nat) : List Char :=
  if n = 0 then ['0'] else pyNatReprAux n n

/-- Value of a digit string read left to right. -/
def digitsToNat (cs : List Char) : Nat :=
  cs.foldl (fun acc c => acc * 10 + digitVal c) 0

/-- Decimal rendering of an integer (Python `str` on `int`). -/
def pyIntRepr (n : Int) : List Char :=
  if n < 0 then '-' :: pyNatRepr n.natAbs else pyNatRepr n.toNat

/-- Parse a full digit run; `none` on an empty or non-digit input. -/
def parseDigitsAll (cs : List Char) : Option Nat :=
  if cs ≠ [] ∧ cs.all isDigitCh then some (digitsToNat cs) else none

/-- Python `int(raw)` on a plain decimal literal with optional sign. -/
def parsePyInt (cs : List Char) : Option Int :=
  match cs with
  | [] => none
  | c :: rest =>
    if c = '-' then (parseDigitsAll rest).map (fun v => -(v : Int))
    else if c = '+' then (parseDigitsAll rest).map (fun v => (v : Int))
    else (parseDigitsAll (c :: rest)).map (fun v => (v : Int))

/-! ### Python values handled by the optional-tag codec

`PyVal` is the domain of native values the codec in `src/pgGraphs/gfaparser.py`
can meet: scalars, lists, tuples and (string-keyed) dicts.  Floats are
represented by their shortest round-tripping decimal text, the equivalence the
spec itself works in ("float equality within textual round-trip precision"):
Python guarantees `float(repr(x)) == x` for every finite float, so a finite
float and its canonical repr text determine each other. -/
mutual
inductive PyVal where
  | pyNone
  | pyBool (b : Bool)
  | pyInt (n : Int)
  | pyFloat (t : String)
  | pyStr (s : String)
  | pyList (xs : PyVals)
  | pyTuple (xs : PyVals)
  | pyDict (kvs : PyPairs)
  deriving DecidableEq, Repr
inductive PyVals where
  | nil
  | cons (v : PyVal) (tl : PyVals)
  deriving DecidableEq, Repr
inductive PyPairs where
  | nil
  | cons (k : String) (v : PyVal) (tl : PyPairs)
  deriving DecidableEq, Repr
end

/-- JSON whitespace accepted between tokens (`json.loads`). -/
def isWsCh (c : Char) : Bool := c = ' ' || c = '\t' || c = '\n' || c = '\r'

/-- Characters that may occur in a JSON number token. -/
def isNumCh (c : Char) : Bool :=
  isDigitCh c || c = '-' || c = '+' || c = '.' || c = 'e' || c = 'E'

/-- `t` is shaped like the canonical repr of a finite Python float: nonempty,
made of number characters, and containing a decimal point or exponent (which is
what distinguishes a float literal from an int literal for `json.loads`). -/
def floatTextOk (t : String) : Bool :=
  !t.data.isEmpty && t.data.all isNumCh
    && t.data.any (fun c => c = '.' || c = 'e' || c = 'E')

/-- JSON string-body escaping as `json.dumps` performs it for `"` and `\`.
Control characters (which `json.dumps` renders as `\uXXXX`) are excluded from
the well-formedness predicate below instead of being modelled. -/
def escStr : List Char → List Char
  | [] => []
  | c :: rest =>
    if c = '"' || c = '\\' then '\\' :: c :: escStr rest else c :: escStr rest

/-- `s` contains no control character (so `json.dumps` escapes at most `"`
and `\` in it). -/
def noCtl (s : String) : Bool := s.data.all (fun c => 32 ≤ c.toNat)

/-! `dumpsV` is `json.dumps` with its default separators `', '` and `': '`,
as used by `GFAParser.set_gfa_type('J')`.  Python serializes a tuple exactly
like a list. -/
mutual
def dumpsV : PyVal → List Char
  | .pyNone => 'n' :: 'u' :: 'l' :: 'l' :: []
  | .pyBool true => 't' :: 'r' :: 'u' :: 'e' :: []
  | .pyBool false => 'f' :: 'a' :: 'l' :: 's' :: 'e' :: []
  | .pyInt n => pyIntRepr n
  | .pyFloat t => t.data
  | .pyStr s => '"' :: (escStr s.data ++ ['"'])
  | .pyList xs => '[' :: (dumpsL xs ++ [']'])
  | .pyTuple xs => '[' :: (dumpsL xs ++ [']'])
  | .pyDict kvs => '{' :: (dumpsP kvs ++ ['}'])
def dumpsL : PyVals → List Char
  | .nil => []
  | .cons v .nil => dumpsV v
  | .cons v tl => dumpsV v ++ ',' :: ' ' :: dumpsL tl
def dumpsP : PyPairs → List Char
  | .nil => []
  | .cons k v .nil => '"' :: escStr k.data ++ '"' :: ':' :: ' ' :: dumpsV v
  | .cons k v tl =>
    '"' :: escStr k.data ++ '"' :: ':' :: ' ' :: dumpsV v ++ ',' :: ' ' :: dumpsP tl
end

/-! `wfV`: well-formed values - float texts are canonical float reprs and
strings (including dict keys) carry no control characters. -/
mutual
def wfV : PyVal → Bool
  | .pyNone => true
  | .pyBool _ => true
  | .pyInt _ => true
  | .pyFloat t => floatTextOk t
  | .pyStr s => noCtl s
  | .pyList xs => wfL xs
  | .pyTuple xs => wfL xs
  | .pyDict kvs => wfP kvs
def wfL : PyVals → Bool
  | .nil => true
  | .cons v tl => wfV v && wfL tl
def wfP : PyPairs → Bool
  | .nil => true
  | .cons k v tl => noCtl k && wfV v && wfP tl
end

/-! `tupleFreeV`: no tuple occurs anywhere in the value (tuples are the
JSON-serializable values whose `json` round trip does not return unchanged). -/
mutual
def tupleFreeV : PyVal → Bool
  | .pyNone => true
  | .pyBool _ => true
  | .pyInt _ => true
  | .pyFloat _ => true
  | .pyStr _ => true
  | .pyList xs => tupleFreeL xs
  | .pyTuple _ => false
  | .pyDict kvs => tupleFreeP kvs
def tupleFreeL : PyVals → Bool
  | .nil => true
  | .cons v tl => tupleFreeV v && tupleFreeL tl
def tupleFreeP : PyPairs → Bool
  | .nil => true
  | .cons _ v tl => tupleFreeV v && tupleFreeP tl
end

/-! `szV`: structural size, used as the parser fuel bound. -/
mutual
def szV : PyVal → Nat
  | .pyNone => 1
  | .pyBool _ => 1
  | .pyInt _ => 1
  | .pyFloat _ => 1
  | .pyStr _ => 1
  | .pyList xs => 1 + szL xs
  | .pyTuple xs => 1 + szL xs
  | .pyDict kvs => 1 + szP kvs
def szL : PyVals → Nat
  | .nil => 0
  | .cons v tl => 1 + szV v + szL tl
def szP : PyPairs → Nat
  | .nil => 0
  | .cons _ v tl => 1 + szV v + szP tl
end

/-! ### `json.loads` (the cast `GFAParser.get_gfa_type('J')` returns)

A recursive-descent parser over the character list, with structural fuel.
It accepts exactly the JSON fragment `json.dumps` emits (and arbitrary JSON
whitespace); exotic forms Python additionally accepts (`NaN`, `Infinity`,
`\uXXXX` escapes) are not reached by any claim. -/
def skipWs (cs : List Char) : List Char := cs.dropWhile isWsCh

/-- Strip an expected literal text from the front of the input. -/
def dropPre : List Char → List Char → Option (List Char)
  | [], cs => some cs
  | p :: ps, c :: cs => if c = p then dropPre ps cs else none
  | _ :: _, [] => none

/-- Parse a JSON string body after the opening quote, undoing `escStr`;
rejects raw control characters as `json.loads` (strict mode) does. -/
def parseStrBody : List Char → Except PyErr (List Char × List Char)
  | [] => .error (.valueError "Unterminated string")
  | c :: rest =>
    if c = '"' then .ok ([], rest)
    else if c = '\\' then
      match rest with
      | [] => .error (.valueError "Unterminated string")
      | c2 :: rest2 =>
        if c2 = '"' || c2 = '\\' then
          (parseStrBody rest2).map (fun p => (c2 :: p.1, p.2))
        else .error (.valueError "Invalid escape")
    else if c.toNat < 32 then .error (.valueError "Invalid control character")
    else (parseStrBody rest).map (fun p => (c :: p.1, p.2))

/-- Parse a JSON number token: ints go through `int`, tokens with `.`/`e`/`E`
become floats carrying the token text. -/
def parseNumber (cs : List Char) : Except PyErr (PyVal × List Char) :=
  let tok := cs.takeWhile isNumCh
  let rest := cs.dropWhile isNumCh
  if tok.isEmpty then .error (.valueError "Expecting value")
  else if tok.any (fun c => c = '.' || c = 'e' || c = 'E') then
    .ok (.pyFloat ⟨tok⟩, rest)
  else
    match parsePyInt tok with
    | some n => .ok (.pyInt n, rest)
    | none => .error (.valueError "Expecting value")

mutual
def parseVal : Nat → List Char → Except PyErr (PyVal × List Char)
  | 0, _ => .error (.valueError "Out of fuel")
  | fuel + 1, cs =>
    match skipWs cs with
    | [] => .error (.valueError "Expecting value")
    | c :: rest =>
      if c = 'n' then
        match dropPre ('u' :: 'l' :: 'l' :: []) rest with
        | some r => .ok (.pyNone, r)
        | none => .error (.valueError "Expecting value")
      else if c = 't' then
        match dropPre ('r' :: 'u' :: 'e' :: []) rest with
        | some r => .ok (.pyBool true, r)
        | none => .error (.valueError "Expecting value")
      else if c = 'f' then
        match dropPre ('a' :: 'l' :: 's' :: 'e' :: []) rest with
        | some r => .ok (.pyBool false, r)
        | none => .error (.valueError "Expecting value")
      else if c = '"' then
        (parseStrBody rest).map (fun p => (.pyStr ⟨p.1⟩, p.2))
      else if c = '[' then
        match skipWs rest with
        | ']' :: r2 => .ok (.pyList .nil, r2)
        | cs2 => (parseElems fuel cs2).map (fun p => (.pyList p.1, p.2))
      else if c = '{' then
        match skipWs rest with
        | '}' :: r2 => .ok (.pyDict .nil, r2)
        | cs2 => (parseMembers fuel cs2).map (fun p => (.pyDict p.1, p.2))
      else parseNumber (c :: rest)
def parseElems : Nat → List Char → Except PyErr (PyVals × List Char)
  | 0, _ => .error (.valueError "Out of fuel")
  | fuel + 1, cs =>
    match parseVal fuel cs with
    | .error e => .error e
    | .ok (v, r) =>
      match skipWs r with
      | ',' :: r2 => (parseElems fuel r2).map (fun p => (.cons v p.1, p.2))
      | ']' :: r2 => .ok (.cons v .nil, r2)
      | _ => .error (.valueError "Expecting delimiter")
def parseMembers : Nat → List Char → Except PyErr (PyPairs × List Char)
  | 0, _ => .error (.valueError "Out of fuel")
  | fuel + 1, cs =>
    match skipWs cs with
    | '"' :: r0 =>
      match parseStrBody r0 with
      | .error e => .error e
      | .ok (k, r1) =>
        match skipWs r1 with
        | ':' :: r2 =>
          match parseVal fuel r2 with
          | .error e => .error e
          | .ok (v, r3) =>
            match skipWs r3 with
            | ',' :: r4 => (parseMembers fuel r4).map (fun p => (.cons ⟨k⟩ v p.1, p.2))
            | '}' :: r4 => .ok (.cons ⟨k⟩ v .nil, r4)
            | _ => .error (.valueError "Expecting delimiter")
        | _ => .error (.valueError "Expecting colon")
    | _ => .error (.valueError "Expecting property name")
end

/-- `json.loads`: parse one value and require only whitespace to follow. -/
def pyLoads (s : String) : Except PyErr PyVal :=
  match parseVal (s.length + 1) s.data with
  | .ok (v, r) => if (skipWs r).isEmpty then .ok v else .error (.valueError "Extra data")
  | .error e => .error e

/-! ### Helper lemmas for the serializer/parser round trip -/

/-- The continuation after a serialized value never starts with a number
character (it is `,`, `]`, `}` or the end of input). -/
def stopOk (cs : List Char) : Bool :=
  match cs with
  | [] => true
  | c :: _ => !isNumCh c

/-! ### The optional-tag codec of `src/pgGraphs/gfaparser.py` -/

/-- The cast `GFAParser.get_gfa_type` returns (Python `int`, `float`, `str`,
`json.loads`). -/
inductive Caster where
  | castInt
  | castFloat
  | castStr
  | castLoads
  deriving DecidableEq, Repr

/-- `GFAParser.get_gfa_type(tag_type)`: decoder dispatch on the one-letter tag
type. `H`/`B` raise `NotImplementedError`; any other unknown letter raises
`ValueError` (gfaparser.py lines 125-136). -/
def get_gfa_type (tag_type : Char) : Except PyErr Caster :=
  if tag_type = 'i' then .ok .castInt
  else if tag_type = 'f' then .ok .castFloat
  else if tag_type = 'A' || tag_type = 'Z' then .ok .castStr
  else if tag_type = 'J' then .ok .castLoads
  else if tag_type = 'H' || tag_type = 'B' then .error .notImplementedError
  else .error (.valueError ("Type identifier " ++ String.mk [tag_type]
    ++ " is not in the GFA standard"))

/-- Python `float(raw)`.  Modelled on float-repr-shaped texts, the only inputs
any claim evaluates it on; there `float(text)` returns the float whose repr is
the text itself.  (Python also accepts forms such as `"3"`, `"inf"` or
`"1_0"`, which no claim reaches.) -/
def parsePyFloat (raw : String) : Except PyErr PyVal :=
  if floatTextOk raw then .ok (.pyFloat raw)
  else .error (.valueError ("could not convert string to float: " ++ raw))

/-- Application of the cast returned by `get_gfa_type` to the raw tag text. -/
def applyCaster : Caster → String → Except PyErr PyVal
  | .castInt, raw =>
    match parsePyInt raw.data with
    | some n => .ok (.pyInt n)
    | none => .error (.valueError ("invalid literal for int() with base 10: " ++ raw))
  | .castFloat, raw => parsePyFloat raw
  | .castStr, raw => .ok (.pyStr raw)
  | .castLoads, raw => pyLoads raw

/-- Decoding one tag value: `get_gfa_type(tag_type)(raw)` as the parser calls
it (gfaparser.py line 214-215). -/
def decodeTag (tag_type : Char) (raw : String) : Except PyErr PyVal :=
  match get_gfa_type tag_type with
  | .ok c => applyCaster c raw
  | .error e => .error e

/-! `jsonDumpableV`: whether `json.dumps` accepts the value (it accepts every
value in this domain; kept as the recursion the `try: dumps(data)` probe in
`get_python_type` performs). -/
mutual
def jsonDumpableV : PyVal → Bool
  | .pyNone => true
  | .pyBool _ => true
  | .pyInt _ => true
  | .pyFloat _ => true
  | .pyStr _ => true
  | .pyList xs => jsonDumpableL xs
  | .pyTuple xs => jsonDumpableL xs
  | .pyDict kvs => jsonDumpableP kvs
def jsonDumpableL : PyVals → Bool
  | .nil => true
  | .cons v tl => jsonDumpableV v && jsonDumpableL tl
def jsonDumpableP : PyPairs → Bool
  | .nil => true
  | .cons _ v tl => jsonDumpableV v && jsonDumpableP tl
end

/-- `GFAParser.get_python_type(data)`: the tag letter the encoder chooses
(gfaparser.py lines 160-191).  The first check is `isinstance(data, int)`,
which is also true for Python booleans, so a `bool` is tagged `'i'`. -/
def get_python_type (data : PyVal) : Except PyErr Char :=
  match data with
  | .pyBool _ => .ok 'i'
  | .pyInt _ => .ok 'i'
  | .pyFloat _ => .ok 'f'
  | .pyStr _ => .ok 'Z'
  | v => if jsonDumpableV v then .ok 'J'
    else .error (.valueError "is not in the GFA standard")

/-- Python `str()` on the values the encoder routes to `str` (every scalar).
Containers never reach `str()` here: `get_python_type` tags them `'J'` and
`set_gfa_type('J')` is `json.dumps`; the container lines below are therefore
dead in every theorem. -/
def pyStrOf : PyVal → String
  | .pyNone => "None"
  | .pyBool true => "True"
  | .pyBool false => "False"
  | .pyInt n => ⟨pyIntRepr n⟩
  | .pyFloat t => t
  | .pyStr s => s
  | .pyList xs => ⟨dumpsV (.pyList xs)⟩
  | .pyTuple xs => ⟨dumpsV (.pyTuple xs)⟩
  | .pyDict kvs => ⟨dumpsV (.pyDict kvs)⟩

/-- `GFAParser.set_gfa_type(letter)` applied to a value: `json.dumps` for
`'J'`, `str` for everything else (gfaparser.py lines 138-157). -/
def set_gfa_type_apply (letter : Char) (v : PyVal) : String :=
  if letter = 'J' then ⟨dumpsV v⟩ else pyStrOf v

/-! ### Optional-tag extraction and the format detector
(`GFAParser.supplementary_datas`, `GFAParser.get_gfa_format`) -/

/-- Insertion-ordered Python-dict insert (overwrite in place, append if new). -/
def dictInsert (m : List (String × PyVal)) (k : String) (v : PyVal) :
    List (String × PyVal) :=
  match m with
  | [] => [(k, v)]
  | (k0, v0) :: tl => if k0 = k then (k0, v) :: tl else (k0, v0) :: dictInsert tl k v

/-- Python-dict lookup. -/
def dictGet (m : List (String × PyVal)) (k : String) : Option PyVal :=
  match m with
  | [] => none
  | (k0, v0) :: tl => if k0 = k then some v0 else dictGet tl k

def isUpperCh (c : Char) : Bool := 'A' ≤ c && c ≤ 'Z'

def isAlphaCh (c : Char) : Bool := ('a' ≤ c && c ≤ 'z') || ('A' ≤ c && c ≤ 'Z')

/-- `re.match('[A-Z]{2}:[a-zA-Z]{1}:', field)`: anchored at the start, so it
only constrains the first five characters. -/
def tagFieldMatch (s : String) : Bool :=
  match s.data with
  | c0 :: c1 :: c2 :: c3 :: c4 :: _ =>
    isUpperCh c0 && isUpperCh c1 && (c2 = ':') && isAlphaCh c3 && (c4 = ':')
  | _ => false

/-- `field[:2]` - the two-letter tag name. -/
def strTake2 (s : String) : String := ⟨s.data.take 2⟩

/-- `field[3]` - the type letter (only used when the field matched, so length
is at least 5). -/
def strCharAt3 (s : String) : Char :=
  match s.data with
  | _ :: _ :: _ :: c :: _ => c
  | _ => '?'

/-- `field[5:]` - the raw tag value. -/
def strDrop5 (s : String) : String := ⟨s.data.drop 5⟩

/-- Loop of `GFAParser.supplementary_datas`: matching fields decode through
the tag codec (whose errors propagate), non-matching fields are kept verbatim
under a synthetic `ARG<n>` key (gfaparser.py 194-219). -/
def suppDatasAux : List String → List (String × PyVal) → Nat →
    Except PyErr (List (String × PyVal))
  | [], mapping, _ => .ok mapping
  | f :: rest, mapping, nargs =>
    if tagFieldMatch f then
      match decodeTag (strCharAt3 f) (strDrop5 f) with
      | .ok v => suppDatasAux rest (dictInsert mapping (strTake2 f) v) nargs
      | .error e => .error e
    else suppDatasAux rest (dictInsert mapping ("ARG" ++ ⟨pyNatRepr nargs⟩) (.pyStr f)) (nargs + 1)

/-- `GFAParser.supplementary_datas(datas, length_condition)`. -/
def supplementary_datas (datas : List String) (length_condition : Nat) :
    Except PyErr (List (String × PyVal)) :=
  suppDatasAux (datas.drop length_condition) [] length_condition

/-- Python `s.endswith(suffix)`. -/
def strEndsWith (s suff : String) : Bool := List.isSuffixOf suff.data s.data

/-- Helper for `split(sep)`: accumulates the current field (reversed). -/
def splitChAux (sep : Char) : List Char → List Char → List String
  | [], acc => [⟨acc.reverse⟩]
  | c :: rest, acc =>
    if c = sep then ⟨acc.reverse⟩ :: splitChAux sep rest [] else splitChAux sep rest (c :: acc)

/-- Python `s.split(sep)` for one-character separators (keeps empty fields,
`"".split(sep)` gives `[""]`). -/
def splitCh (sep : Char) (s : String) : List String := splitChAux sep s.data []

/-- Python `s.split('\t')`. -/
def splitTab (s : String) : List String := splitCh '\t' s

/-- A file as the detector sees it: whether the path exists, its name, and its
full text (`st_size == 0` iff the text is empty; `readline` returns the text
up to the first newline). -/
structure FSFile where
  onDisk : Bool
  name : String
  content : String
  deriving DecidableEq, Repr

/-- `readline()` stripped of its newline (`header.strip('\n')`). -/
def firstLine (content : String) : String := ⟨content.data.takeWhile (· ≠ '\n')⟩

/-- Python `value == '<literal str>'`: true only for an equal `str` (cross-type
`==` with a string is `False` in Python). -/
def pyEqStr (v : PyVal) (s : String) : Bool :=
  match v with
  | .pyStr s0 => s0 = s
  | _ => false

/-- The version tag of the header line, when the line parses: `VN` looked up
in the supplementary data of the tab-split first line. -/
def vnTag (content : String) : Except PyErr (Option PyVal) :=
  match supplementary_datas (splitTab (firstLine content)) 1 with
  | .ok m => .ok (dictGet m "VN")
  | .error e => .error e

/-- `GFAParser.get_gfa_format` for a single path (gfaparser.py 33-100; the
public entry wraps a single path in a list and unwraps the singleton result).
Preflight checks happen before any read; then only the first line is read. -/
def get_gfa_format (f : FSFile) : Except PyErr String :=
  if !f.onDisk then
    .error (.osError "Specified file does not exists. Please check provided path.")
  else if !(strEndsWith f.name ".gfa" || strEndsWith f.name ".gfa.gz") then
    .error (.ioError "File descriptor is invalid. Please check format, this lib is designed to work with Graphical Fragment Assembly (GFA) files.")
  else if f.content = "" then
    .error (.ioError "File is empty.")
  else
    match f.content.data with
    | [] => .error (.ioError "File is empty.")
    | c :: _ =>
      if c ≠ 'H' then .ok "rGFA"
      else
        match vnTag f.content with
        | .error e => .error e
        | .ok none => .ok "rGFA"
        | .ok (some v) =>
          if pyEqStr v "1.0" then .ok "GFA1"
          else if pyEqStr v "1.1" then .ok "GFA1.1"
          else if pyEqStr v "1.2" then .ok "GFA1.2"
          else if pyEqStr v "2.0" then .ok "GFA2"
          else .ok "unknown"

end Gfa

namespace Gfagraphs

/-! ## The older module `src/gfagraphs/gfagraphs.py`

It carries the dialect-legality checks: its per-kind extraction functions
receive the declared `GfaStyle` and raise `ValueError` for line kinds the
dialect forbids (`path` at lines 288-311 for P-lines under rGFA). -/

/-- `Orientation` of gfagraphs.py (lines 91-95): `+`, `-`, `?`. -/
inductive Orientation where
  | forward
  | reverse
  | unknown
  deriving DecidableEq, Repr

/-- `Orientation(c)`: the enum constructor; an unknown character raises
`ValueError` as Python enums do. -/
def orientationOfChar (c : Char) : Except Gfa.PyErr Orientation :=
  if c = '+' then .ok .forward
  else if c = '-' then .ok .reverse
  else if c = '?' then .ok .unknown
  else .error (.valueError (String.mk [c] ++ " is not a valid Orientation"))

/-- `GfaStyle` of gfagraphs.py (lines 98-105). -/
inductive GfaStyle where
  | rgfa
  | gfa1
  | gfa1_1
  | gfa1_2
  | gfa2
  | unk
  deriving DecidableEq, Repr

/-- How the enum member renders inside a Python f-string (`f"{gfa_style}"`). -/
def GfaStyle.pyText : GfaStyle → String
  | .rgfa => "GfaStyle.RGFA"
  | .gfa1 => "GfaStyle.GFA1"
  | .gfa1_1 => "GfaStyle.GFA1_1"
  | .gfa1_2 => "GfaStyle.GFA1_2"
  | .gfa2 => "GfaStyle.GFA2"
  | .unk => "GfaStyle.UNK"

/-- The `ValueError` message `path` raises for a P-line under rGFA
(gfagraphs.py lines 300-301). -/
def pLineMsg (style : GfaStyle) : String :=
  "Incompatible version format, P-lines vere added in GFA1 and were absent from "
    ++ style.pyText ++ "."

/-- The waypoint list `[(node[:-1], Orientation(node[-1])) for node in
datas[2].split(',')]`; an empty token raises `IndexError` (`node[-1]`), a bad
trailing character raises `ValueError` (the enum constructor). -/
def parseWaypoints : List String → Except Gfa.PyErr (List (String × Orientation))
  | [] => .ok []
  | t :: rest =>
    match t.data.getLast? with
    | none => .error .indexError
    | some c =>
      match orientationOfChar c with
      | .error e => .error e
      | .ok ori =>
        match parseWaypoints rest with
        | .error e => .error e
        | .ok tl => .ok ((⟨t.data.dropLast⟩, ori) :: tl)

/-- The parsed P-line: mandatory fields plus the optional-tag map. -/
structure PathData where
  name : String
  path : List (String × Orientation)
  tags : List (String × Gfa.PyVal)
  deriving Repr

/-- `path(datas, gfa_style)` of gfagraphs.py (lines 288-311): refuses rGFA
with a `ValueError` naming the dialect and the line kind, otherwise reads the
name from `datas[1]`, the walk from `datas[2]`, and the optional tags from
the fields past index 7. -/
def path (datas : List String) (gfa_style : GfaStyle) : Except Gfa.PyErr PathData :=
  if gfa_style = .rgfa then .error (.valueError (pLineMsg gfa_style))
  else
    match datas with
    | _ :: d1 :: d2 :: _ =>
      match parseWaypoints (Gfa.splitCh ',' d2) with
      | .error e => .error e
      | .ok wps =>
        match Gfa.supplementary_datas datas 7 with
        | .error e => .error e
        | .ok tags => .ok ⟨d1, wps, tags⟩
    | _ => .error .indexError

end Gfagraphs


/-! ## pgGraphs graph model (`src/pgGraphs/graph.py`, `src/pgGraphs/gfaparser.py`)

Shallow embedding of the in-memory `Graph` object of `pgGraphs`.  Python dicts
are insertion-ordered association lists (`alistGet` / `alistSet` / `alistPop`
mirror `d[k]`, `d[k] = v` and `d.pop(k)`), exceptions become `Except Gfa.PyErr`,
and the fixed key schema of each record (`'seq'`/`'length'`/`'PO'` for
segments, `'orientation'`/`'start'`/`'end'` for edges, ...) becomes a
structure with `Option` fields for the keys that may be absent. -/

namespace PgGraphs

/-- `Orientation` enum of `src/pgGraphs/abstractions.py`
(FORWARD `+`, REVERSE `-`, ANY `?`, BOTH `=`). -/
inductive Orientation where
  | forward
  | reverse
  | any
  | both
  deriving DecidableEq, Repr

/-- `Orientation.value` (the `.value` attribute of the Python enum member). -/
def Orientation.value : Orientation → String
  | .forward => "+"
  | .reverse => "-"
  | .any => "?"
  | .both => "="

/-- `GFAFormat` enum of `src/pgGraphs/abstractions.py`. -/
inductive GFAFormat where
  | rgfa
  | gfa1
  | gfa1_1
  | gfa1_2
  | gfa2
  | any
  deriving DecidableEq, Repr

/-- The value stored under `metadata['version']`: either a plain string (what
`Graph.__init__` stores — the text returned by `GFAParser.get_gfa_format`, or
`'unknown'`) or a `GFAFormat` enum member (what `save_graph` receives through
`force_format`). -/
inductive FormatVal where
  | vstr (s : String)
  | vfmt (f : GFAFormat)
  deriving DecidableEq, Repr

/-- Python equality between a `metadata['version']` value and a `GFAFormat`
enum member, as evaluated by `gfa_format == GFAFormat.X` in `save_graph`:
a `str` never equals an `Enum` member, so the comparison is `False` whenever
the version is the string stored by `Graph.__init__`. -/
def fmtEq : FormatVal → GFAFormat → Bool
  | .vstr _, _ => false
  | .vfmt a, b => a = b

/-- The value stored under a path's `start_offset` / `stop_offset` key:
`None` (P-lines), an `int` (`add_path`) or a `str` (W-line fields). -/
inductive OffVal where
  | noneV
  | intV (n : Int)
  | strV (s : String)
  deriving DecidableEq, Repr

/-- A waypoint of a path's `'path'` list.  Normally a 2-tuple
`(segment_name, Orientation)`; `raw` embeds the bare `str` that
`merge_segments`' slice assignment `path['path'][pos:pos-len(segs)+1] =
[merge_name]` would splice in (Python lists are heterogeneous). -/
inductive PW where
  | pair (name : String) (ori : Orientation)
  | raw (s : String)
  deriving DecidableEq, Repr

/-- A segment record: key `'seq'` (present iff sequences are resident),
key `'length'`, and the derived `'PO'` tag once `sequence_offsets` ran
(a dict path-id → list of `(start, end, orientation.value)` triples). -/
structure SegDatas where
  seq : Option String
  len : Nat
  po : Option (List (String × List (Int × Int × String)))
  deriving DecidableEq, Repr

/-- An edge record: key `'orientation'` (a set of orientation pairs, modelled
as an insertion-ordered duplicate-free list) plus the optional `'start'` /
`'end'` keys (absent on every edge built by `add_edge` or parsed from a file;
`split_segments` and `rename_node` nevertheless read them). -/
structure EdgeDatas where
  orientation : List (Orientation × Orientation)
  startK : Option String
  endK : Option String
  deriving DecidableEq, Repr

/-- A path record with the fixed keys written by `read_gfa_line` / `add_path`. -/
structure PathDatas where
  pid : String
  pname : String
  origin : Option String
  start_offset : OffVal
  stop_offset : OffVal
  path : List PW
  deriving DecidableEq, Repr

/-- The `Graph` object (`graph.py` lines 69-126): the four collections plus the
`metadata` keys that matter here (`'version'`, `'with_sequence'`, and whether
the `'PO'` key has been set by `sequence_offsets`).  A header is kept as its
tag dict. -/
structure Graph where
  segments : List (String × SegDatas)
  lines : List ((String × String) × EdgeDatas)
  paths : List (String × PathDatas)
  headers : List (List (String × Gfa.PyVal))
  version : FormatVal
  with_sequence : Bool
  poFlag : Bool
  deriving DecidableEq, Repr

/-- Python dict lookup `d[k]` (as an `Option`; `none` is the `KeyError` case). -/
def alistGet {κ β : Type} [DecidableEq κ] : List (κ × β) → κ → Option β
  | [], _ => none
  | (k, v) :: rest, key => if k = key then some v else alistGet rest key

/-- Python dict assignment `d[k] = v`: updates in place if the key exists
(keeping its position), otherwise appends (insertion order). -/
def alistSet {κ β : Type} [DecidableEq κ] : List (κ × β) → κ → β → List (κ × β)
  | [], key, v => [(key, v)]
  | (k, w) :: rest, key, v =>
    if k = key then (k, v) :: rest else (k, w) :: alistSet rest key v

/-- Python `d.pop(k)`: the value and the remaining dict, or `none` (KeyError). -/
def alistPop {κ β : Type} [DecidableEq κ] : List (κ × β) → κ → Option (β × List (κ × β))
  | [], _ => none
  | (k, v) :: rest, key =>
    if k = key then some (v, rest)
    else match alistPop rest key with
      | none => none
      | some (w, rest2) => some (w, (k, v) :: rest2)

/-- `Graph.add_node` (`graph.py` lines 305-332), without extra metadata:
stores `{'length': len(sequence)}` or `{'seq': sequence, 'length': ...}`
depending on `metadata['with_sequence']`. -/
def add_node (g : Graph) (name : String) (sequence : String) : Graph :=
  if !g.with_sequence then
    { g with segments := alistSet g.segments name ⟨none, sequence.data.length, none⟩ }
  else
    { g with segments := alistSet g.segments name ⟨some sequence, sequence.data.length, none⟩ }

/-- `Graph.get_out_edges` (`graph.py` lines 420-433). -/
def get_out_edges (g : Graph) (node_name : String) : List ((String × String) × EdgeDatas) :=
  g.lines.filter (fun e => e.1.1 = node_name)

/-- `Graph.get_in_edges` (`graph.py` lines 435-448). -/
def get_in_edges (g : Graph) (node_name : String) : List ((String × String) × EdgeDatas) :=
  g.lines.filter (fun e => e.1.2 = node_name)

/-- `Graph.get_edges` (`graph.py` lines 450-463). -/
def get_edges (g : Graph) (node_name : String) : List ((String × String) × EdgeDatas) :=
  g.lines.filter (fun e => e.1.1 = node_name || e.1.2 = node_name)

/-- The sequence text of a segment record: `datas['seq'] if 'seq' in datas
else 'N' * datas['length']` (used by `merge_segments` and `split_segments`). -/
def segSeq (d : SegDatas) : String :=
  match d.seq with
  | some s => s
  | none => ⟨List.replicate d.len 'N'⟩

/-- The node-removal loop of `merge_segments` (`graph.py` lines 619-623):
pops every listed segment (KeyError if absent) and concatenates their
sequence texts. -/
def mergePopLoop : List String → List (String × SegDatas) → String →
    Except Gfa.PyErr (List (String × SegDatas) × String)
  | [], segmap, acc => .ok (segmap, acc)
  | n :: rest, segmap, acc =>
    match alistPop segmap n with
    | none => .error .keyError
    | some (datas, segmap2) => mergePopLoop rest segmap2 (acc ++ segSeq datas)

/-- The left re-keying loop of `merge_segments` (`graph.py` lines 629-632):
for each in-edge of `segs[0]`, pop it, set `edge_datas['end'] = merge_name`
and re-insert it under `(edge_index[0], merge_name)`. -/
def rekeyLeft (mn : String) : List ((String × String) × EdgeDatas) →
    List ((String × String) × EdgeDatas) → Except Gfa.PyErr (List ((String × String) × EdgeDatas))
  | lines, [] => .ok lines
  | lines, (idx, _) :: rest =>
    match alistPop lines idx with
    | none => .error .keyError
    | some (datas, lines2) =>
      rekeyLeft mn (alistSet lines2 (idx.1, mn) { datas with endK := some mn }) rest

/-- The right re-keying loop of `merge_segments` (`graph.py` lines 633-636):
for each out-edge of `segs[-1]`, pop it, set `edge_datas['start'] = merge_name`
and re-insert it under `(merge_name, edge_index[-1])`. -/
def rekeyRight (mn : String) : List ((String × String) × EdgeDatas) →
    List ((String × String) × EdgeDatas) → Except Gfa.PyErr (List ((String × String) × EdgeDatas))
  | lines, [] => .ok lines
  | lines, (idx, _) :: rest =>
    match alistPop lines idx with
    | none => .error .keyError
    | some (datas, lines2) =>
      rekeyRight mn (alistSet lines2 (mn, idx.2) { datas with startK := some mn }) rest

/-- Python `x[0]` on a waypoint, as in `path_nodes = [x[0] for x in
path['path']]`: the first component of a tuple, or the first character of a
spliced-in bare string. -/
def pwFirst : PW → String
  | .pair n _ => n
  | .raw s => ⟨s.data.take 1⟩

/-- The comparison `segs == path_nodes[i:i+len(segs)]` of `merge_segments`
(`graph.py` line 641).  `segs` is the `*segs` varargs TUPLE while the slice is
a LIST, and in Python `tuple == list` is always `False`, whatever the
elements; so the comparison never succeeds. -/
def tupleEqList (_ : List String) (_ : List String) : Bool := false

/-- Python list slice assignment `l[a:b] = repl` (step 1): negative indices
wrap once by the length, both are clamped to `[0, n]`, and the removed range
is empty when `stop ≤ start`. -/
def pySliceAssign (l : List PW) (a b : Int) (repl : List PW) : List PW :=
  let n : Int := l.length
  let a2 : Int := if a < 0 then max (a + n) 0 else min a n
  let b2 : Int := if b < 0 then max (b + n) 0 else min b n
  let b3 : Int := max a2 b2
  l.take a2.toNat ++ repl ++ l.drop b3.toNat

/-- The path-editing step of `merge_segments` for one path (`graph.py` lines
638-644): candidate positions are `range(len(path) - len(segs) + 1)` filtered
by the (always-false) tuple-vs-list comparison, reversed, and each position
gets the slice assignment `path['path'][pos:pos-len(segs)+1] = [merge_name]`. -/
def mergePathEdit (segs : List String) (mn : String) (p : List PW) : List PW :=
  let path_nodes := p.map pwFirst
  let count : Int := (p.length : Int) - (segs.length : Int) + 1
  let positions := ((List.range count.toNat).filter
    (fun i => tupleEqList segs ((path_nodes.drop i).take segs.length))).reverse
  positions.foldl
    (fun acc pos => pySliceAssign acc (pos : Int) ((pos : Int) - (segs.length : Int) + 1) [.raw mn])
    p

/-- `Graph.merge_segments` (`graph.py` lines 604-644) with an explicit
`merge_name`.  Steps, in source order: pop every member and accumulate the
concatenated sequence; `add_node(merge_name, new_seq)`; take `segs[0]` /
`segs[-1]` (IndexError on an empty series); re-key the in-edges of the first
member and the out-edges of the last; run the (dead) path edit. -/
def merge_segments (g : Graph) (segs : List String) (merge_name : String) :
    Except Gfa.PyErr Graph :=
  match mergePopLoop segs g.segments "" with
  | .error e => .error e
  | .ok (segmap, new_node_seq) =>
    let g2 := add_node { g with segments := segmap } merge_name new_node_seq
    match segs with
    | [] => .error .indexError
    | s0 :: srest =>
      let sLast := srest.getLastD s0
      let left_edges := get_in_edges g2 s0
      let right_edges := get_out_edges g2 sLast
      match rekeyLeft merge_name g2.lines left_edges with
      | .error e => .error e
      | .ok lines1 =>
        match rekeyRight merge_name lines1 right_edges with
        | .error e => .error e
        | .ok lines2 =>
          .ok { g2 with
            lines := lines2,
            paths := g2.paths.map (fun pr =>
              (pr.1, { pr.2 with path := mergePathEdit segs merge_name pr.2.path })) }

/-- `Graph.split_segments` (`graph.py` lines 477-564).  Faithful to the
source's control flow and error sites:
* `self.segments[segment_name]` → KeyError if absent;
* length mismatch → `ValueError("Number of breakpoints and future node names does not match.")`;
* the edge loop reads `edge['start']` — a key no edge built by `add_edge` or
  `read_gfa_line` carries → KeyError; if a `'start'` key were present, the
  taken branch dereferences `edge.datas` (a plain dict has no such attribute)
  and the other branch `edge['orientation'].value` (a `set` has no `.value`)
  → AttributeError either way;
* with no incident edges, the first-node edit runs
  (`node_to_split['seq'] = ...`), then the split loop at `i = 0` either hits
  `del self.segments[node_to_split]` — indexing a dict with a dict →
  TypeError — or calls `self.add_node(...)` followed by
  `self.add_edge(..., ori_source=orient, ...)` where `orient` was never bound
  (the edge loop did not run) → NameError while evaluating the argument. -/
def split_segments (g : Graph) (segment_name : String) (future_segment_name : List String)
    (position_to_split : List (Nat × Nat)) : Except Gfa.PyErr Graph :=
  match alistGet g.segments segment_name with
  | none => .error .keyError
  | some node_to_split =>
    if future_segment_name.length ≠ position_to_split.length then
      .error (.valueError "Number of breakpoints and future node names does not match.")
    else
      let sequence := segSeq node_to_split
      match get_edges g segment_name with
      | e :: _ =>
        match e.2.startK with
        | none => .error .keyError
        | some _ => .error .attributeError
      | [] =>
        match position_to_split with
        | [] =>
          -- `position_to_split[0][1]` on an empty list
          .error .indexError
        | (p1, p2) :: _ =>
          let node2 : SegDatas :=
            match node_to_split.seq with
            | some s => { node_to_split with seq := some ⟨s.data.take p2⟩ }
            | none => { node_to_split with seq := some ⟨List.replicate p2 'N'⟩ }
          let g1 := { g with segments := alistSet g.segments segment_name node2 }
          match future_segment_name with
          | [] => .error .indexError
          | f0 :: _ =>
            if f0 = segment_name then .error .typeError
            else
              let _g2 := add_node g1 f0 ⟨(sequence.data.drop p1).take (p2 - p1)⟩
              -- `ori_source=orient` with `orient` unbound
              .error .nameError

/-- Truthiness of a `start_offset` / `stop_offset` value (Python `if x`). -/
def offTruthy : OffVal → Bool
  | .noneV => false
  | .intV n => n ≠ 0
  | .strV s => s ≠ ""

/-- `int(x)` on an offset value as `sequence_offsets` would apply it (only
reachable through the dead guard; `int(None)` would itself raise). -/
def offToInt : OffVal → Int
  | .noneV => 0
  | .intV n => n
  | .strV _ => 0

/-- `isinstance(x, int)` on an offset value. -/
def offIsInt : OffVal → Bool
  | .intV _ => true
  | _ => false

/-- The guard `isinstance(walk_datas['start_offset'], int) is None` of
`sequence_offsets` (`graph.py` line 796): `isinstance` returns a `bool`, and
`<bool> is None` is always `False` in Python, so the guarded branch is dead. -/
def boolIsNone (_ : Bool) : Bool := false

/-- The inner loop of `sequence_offsets` over one path's waypoints
(`graph.py` lines 797-809): look the segment up (KeyError if a waypoint
references a missing segment), initialise its `'PO'` dict if needed, append
`(start, start + length, vect.value)` under the walk name, and advance the
running offset by the segment's length.  A `raw` waypoint would fail the
tuple unpacking `for node, vect in ...` (ValueError, or the later
`.value` AttributeError when the string happens to have length 2). -/
def seqOffsetsWalk (walk_name : String) : List PW → List (String × SegDatas) → Int →
    Except Gfa.PyErr (List (String × SegDatas))
  | [], segs, _ => .ok segs
  | .raw s :: _, _, _ =>
    if s.data.length = 2 then .error .attributeError
    else .error (.valueError "not enough values to unpack")
  | .pair node vect :: rest, segs, start_offset =>
    match alistGet segs node with
    | none => .error .keyError
    | some sd =>
      let po0 := match sd.po with
        | none => []
        | some m => m
      let triple : Int × Int × String := (start_offset, start_offset + (sd.len : Int), vect.value)
      let po1 := match alistGet po0 walk_name with
        | some lst => alistSet po0 walk_name (lst ++ [triple])
        | none => alistSet po0 walk_name [triple]
      seqOffsetsWalk walk_name rest (alistSet segs node { sd with po := some po1 })
        (start_offset + (sd.len : Int))

/-- The outer loop of `sequence_offsets` over the paths (`graph.py` lines
794-809).  The initial running offset is `int(walk_datas['start_offset'])` if
the key exists AND `isinstance(...) is None` — which is never true — `else 0`:
the declared start offset is always ignored. -/
def seqOffsetsPaths : List (String × PathDatas) → List (String × SegDatas) →
    Except Gfa.PyErr (List (String × SegDatas))
  | [], segs => .ok segs
  | (walk_name, walk_datas) :: rest, segs =>
    let start_offset : Int :=
      if boolIsNone (offIsInt walk_datas.start_offset) then
        offToInt walk_datas.start_offset
      else 0
    match seqOffsetsWalk walk_name walk_datas.path segs start_offset with
    | .error e => .error e
    | .ok segs2 => seqOffsetsPaths rest segs2

/-- `Graph.sequence_offsets` (`graph.py` lines 776-810): the computation runs
when `'PO'` is not yet in the metadata or `recalculate` is set; afterwards
(only on success — an exception propagates first) `metadata['PO'] = True`. -/
def sequence_offsets (g : Graph) (recalculate : Bool) : Except Gfa.PyErr Graph :=
  if !g.poFlag || recalculate then
    match seqOffsetsPaths g.paths g.segments with
    | .error e => .error e
    | .ok segs2 => .ok { g with segments := segs2, poFlag := true }
  else
    .ok { g with poFlag := true }

/-- The kind (and identifying payload) of one line written by
`GFAParser.save_graph`.  Optional-tag text is not modelled: `minimal_graph`
only toggles that text and never changes which lines are emitted. -/
inductive OutLine where
  | hline
  | sline (name : String)
  | lline (source sink : String) (ori : Orientation × Orientation)
  | pline (name : String) (path : List PW)
  | wline (name : String) (path : List PW)
  deriving DecidableEq, Repr

/-- `sum([graph.segments[x]['length'] for (x, _) in path_datas['path']])`:
the default `offset_stop` of a W-line (KeyError on a dangling waypoint,
unpacking error on a spliced-in bare string). -/
def sumPathLengths (segs : List (String × SegDatas)) : List PW → Except Gfa.PyErr Int
  | [] => .ok 0
  | .raw s :: _ =>
    if s.data.length = 2 then .ok 0
    else .error (.valueError "not enough values to unpack")
  | .pair x _ :: rest =>
    match alistGet segs x with
    | none => .error .keyError
    | some sd =>
      match sumPathLengths segs rest with
      | .error e => .error e
      | .ok n => .ok ((sd.len : Int) + n)

/-- The W-line branch of `save_graph` over the paths: when the stored
`stop_offset` is falsy the default is summed from the segment lengths (which
may raise); one `W` line is written per path. -/
def wlineSection (segs : List (String × SegDatas)) :
    List (String × PathDatas) → Except Gfa.PyErr (List OutLine)
  | [] => .ok []
  | (path_name, path_datas) :: rest =>
    let stop : Except Gfa.PyErr Int :=
      if offTruthy path_datas.stop_offset then .ok 0
      else sumPathLengths segs path_datas.path
    match stop with
    | .error e => .error e
    | .ok _ =>
      match wlineSection segs rest with
      | .error e => .error e
      | .ok out => .ok (.wline path_name path_datas.path :: out)

/-- The per-path dispatch of `save_graph` (`gfaparser.py` lines 355-382):
`P` lines iff `gfa_format == GFAFormat.GFA1 or gfa_format == GFAFormat.ANY`,
`W` lines iff it equals `GFA1_1`, `GFA1_2` or `GFA2`, and nothing otherwise
(in particular whenever `gfa_format` is the string kept in the metadata,
which equals no enum member). -/
def pathSection (gfa_format : FormatVal) (segs : List (String × SegDatas))
    (paths : List (String × PathDatas)) : Except Gfa.PyErr (List OutLine) :=
  if fmtEq gfa_format .gfa1 || fmtEq gfa_format .any then
    .ok (paths.map (fun pr => .pline pr.1 pr.2.path))
  else if fmtEq gfa_format .gfa1_1 || fmtEq gfa_format .gfa1_2 || fmtEq gfa_format .gfa2 then
    wlineSection segs paths
  else
    .ok []

/-- `GFAParser.save_graph` (`gfaparser.py` lines 309-385), as the sequence of
line kinds it writes.  `gfa_format = graph.metadata['version'] if not
force_format else force_format` (`force_format = False` is `none`); headers
are written when present and `gfa_format != GFAFormat.RGFA`; `S` lines always;
one `L` line per orientation alternative of each edge; then the path
dispatch.  `minimal_graph` only affects optional-tag text. -/
def save_graph (g : Graph) (minimal_graph : Bool) (force_format : Option GFAFormat) :
    Except Gfa.PyErr (List OutLine) :=
  let _ := minimal_graph
  let gfa_format : FormatVal :=
    match force_format with
    | none => g.version
    | some f => .vfmt f
  let headerLines : List OutLine :=
    if !g.headers.isEmpty && !fmtEq gfa_format .rgfa then
      g.headers.map (fun _ => .hline)
    else []
  let segLines : List OutLine := g.segments.map (fun s => .sline s.1)
  let linkLines : List OutLine :=
    (g.lines.map (fun e => e.2.orientation.map (fun alt => OutLine.lline e.1.1 e.1.2 alt))).flatten
  match pathSection gfa_format g.segments g.paths with
  | .error e => .error e
  | .ok pathLines => .ok (headerLines ++ segLines ++ linkLines ++ pathLines)

/-- Is a written line a `P` or `W` line? -/
def isPathLine : OutLine → Bool
  | .pline _ _ => true
  | .wline _ _ => true
  | _ => false

/-- The path-closure invariant of the spec: every segment id referenced by
any path waypoint exists in the segment collection. -/
def pathRefsClosed (g : Graph) : Bool :=
  g.paths.all (fun pr => pr.2.path.all (fun w =>
    (alistGet g.segments (match w with | .pair n _ => n | .raw s => s)).isSome))

/-- Scenario 1 of the spec: segments `1` = `AAA` and `2` = `CCC`, one edge
`(1, 2)` with orientation set `{(+,+)}`, and path `p1 = [(1,+),(2,+)]`
(a P-line: no origin, no offsets), loaded with sequences resident. -/
def scenario1 : Graph :=
  { segments := [("1", ⟨some "AAA", 3, none⟩), ("2", ⟨some "CCC", 3, none⟩)],
    lines := [(("1", "2"), ⟨[(.forward, .forward)], none, none⟩)],
    paths := [("p1", ⟨"p1", "p1", none, .noneV, .noneV,
      [.pair "1" .forward, .pair "2" .forward]⟩)],
    headers := [[("VN", .pyStr "1.0")]],
    version := .vstr "GFA1",
    with_sequence := true,
    poFlag := false }

/-- What `merge_segments(scenario1, "1", "2", merge_name="12")` actually
returns: the members are popped and segment `12` = `AAACCC` is added, but the
internal edge `(1, 2)` is kept (only in-edges of the first member and
out-edges of the last are re-keyed, and `(1, 2)` is neither) and the path
still reads `[(1,+),(2,+)]` (the rewrite positions come from a tuple-vs-list
comparison that is always false). -/
def scenario1Merged : Graph :=
  { segments := [("12", ⟨some "AAACCC", 6, none⟩)],
    lines := [(("1", "2"), ⟨[(.forward, .forward)], none, none⟩)],
    paths := [("p1", ⟨"p1", "p1", none, .noneV, .noneV,
      [.pair "1" .forward, .pair "2" .forward]⟩)],
    headers := [[("VN", .pyStr "1.0")]],
    version := .vstr "GFA1",
    with_sequence := true,
    poFlag := false }

/-- A one-segment graph for the split/merge round trip: segment `s` with
resident sequence `AC` (length 2, so `k = 1` is a valid interior cut). -/
def scenario3 : Graph :=
  { segments := [("s", ⟨some "AC", 2, none⟩)],
    lines := [],
    paths := [],
    headers := [],
    version := .vstr "GFA1",
    with_sequence := true,
    poFlag := false }

/-- A graph for `sequence_offsets`: segments `s` = `AAA` and `t` = `CC`, and
one walk `w` with declared `start_offset = 5` (as stored by `add_path`) whose
path visits `s`, then `t` reversed, then `s` again. -/
def scenario7 : Graph :=
  { segments := [("s", ⟨some "AAA", 3, none⟩), ("t", ⟨some "CC", 2, none⟩)],
    lines := [],
    paths := [("w", ⟨"w", "w", none, .intV 5, .noneV,
      [.pair "s" .forward, .pair "t" .reverse, .pair "s" .forward]⟩)],
    headers := [],
    version := .vstr "GFA1.1",
    with_sequence := true,
    poFlag := false }

/-- What `sequence_offsets` actually computes on `scenario7`: the running
offset starts at 0 — not at the declared 5 — so `s` gets the triples
`(0,3,+)` and `(5,8,+)` (one appended per occurrence) and `t` gets
`(3,5,-)`; the `PO` metadata flag is set. -/
def scenario7PO : Graph :=
  { scenario7 with
    segments := [
      ("s", ⟨some "AAA", 3, some [("w", [(0, 3, "+"), (5, 8, "+")])]⟩),
      ("t", ⟨some "CC", 2, some [("w", [(3, 5, "-")])]⟩)],
    poFlag := true }

end PgGraphs

/-! ## Theorems -/

namespace Gfa

theorem digitVal_digitChar {d : Nat} (h : d < 10) : digitVal (digitChar d) = d := by
  interval_cases d <;> rfl

theorem isDigitCh_digitChar {d : Nat} (h : d < 10) : isDigitCh (digitChar d) = true := by
  interval_cases d <;> rfl

theorem pyNatReprAux_mem_digit {fuel n : Nat} {c : Char} (h : c ∈ pyNatReprAux fuel n) :
    isDigitCh c = true := by
  induction fuel generalizing n with
  | zero => cases h
  | succ fuel ih =>
    unfold pyNatReprAux at h
    split at h
    · cases h
    · rw [List.mem_append, List.mem_singleton] at h
      rcases h with h | rfl
      · exact ih h
      · exact isDigitCh_digitChar (Nat.mod_lt _ (by norm_num))

theorem pyNatReprAux_ne_nil {fuel n : Nat} (hf : 1 ≤ fuel) (hn : n ≠ 0) :
    pyNatReprAux fuel n ≠ [] := by
  cases fuel with
  | zero => omega
  | succ fuel =>
    unfold pyNatReprAux
    rw [if_neg hn]
    intro h
    rw [List.append_eq_nil] at h
    exact List.cons_ne_nil _ _ h.2

theorem pyNatRepr_ne_nil (n : Nat) : pyNatRepr n ≠ [] := by
  unfold pyNatRepr
  split
  · simp
  · next h => exact pyNatReprAux_ne_nil (by omega) h

theorem mem_pyNatRepr_isDigit {n : Nat} {c : Char} (h : c ∈ pyNatRepr n) :
    isDigitCh c = true := by
  unfold pyNatRepr at h
  split at h
  · rw [List.mem_singleton] at h
    subst h
    rfl
  · exact pyNatReprAux_mem_digit h

theorem digitsToNat_append_digit (l : List Char) (c : Char) :
    digitsToNat (l ++ [c]) = digitsToNat l * 10 + digitVal c := by
  unfold digitsToNat
  rw [List.foldl_append]
  rfl

theorem digitsToNat_pyNatReprAux {fuel n : Nat} (h : n ≤ fuel) :
    digitsToNat (pyNatReprAux fuel n) = n := by
  induction fuel generalizing n with
  | zero =>
    have : n = 0 := by omega
    subst this
    rfl
  | succ fuel ih =>
    unfold pyNatReprAux
    split
    · next h0 => rw [h0]; rfl
    · next h0 =>
      rw [digitsToNat_append_digit, ih (by
          have := Nat.div_lt_self (Nat.pos_of_ne_zero h0) (by norm_num : 1 < 10)
          omega),
        digitVal_digitChar (Nat.mod_lt _ (by norm_num))]
      omega

theorem digitsToNat_pyNatRepr (n : Nat) : digitsToNat (pyNatRepr n) = n := by
  unfold pyNatRepr
  split
  · next h =>
    subst h
    rfl
  · exact digitsToNat_pyNatReprAux le_rfl

theorem parseDigitsAll_pyNatRepr (n : Nat) : parseDigitsAll (pyNatRepr n) = some n := by
  unfold parseDigitsAll
  rw [if_pos ⟨pyNatRepr_ne_nil n, List.all_eq_true.mpr fun c hc => mem_pyNatRepr_isDigit hc⟩,
    digitsToNat_pyNatRepr]

theorem isDigitCh_ne_sign {c : Char} (h : isDigitCh c = true) : c ≠ '-' ∧ c ≠ '+' := by
  constructor <;> rintro rfl <;> simp [isDigitCh, digitVal] at h

theorem parsePyInt_pyIntRepr (n : Int) : parsePyInt (pyIntRepr n) = some n := by
  unfold pyIntRepr
  split
  · show (parseDigitsAll (pyNatRepr n.natAbs)).map (fun v => -(v : Int)) = some n
    rw [parseDigitsAll_pyNatRepr]
    show some (-(n.natAbs : Int)) = some n
    congr 1
    omega
  · obtain ⟨c, cs, hc⟩ : ∃ c cs, pyNatRepr n.toNat = c :: cs := by
      cases h : pyNatRepr n.toNat with
      | nil => exact absurd h (pyNatRepr_ne_nil _)
      | cons c cs => exact ⟨c, cs, rfl⟩
    have hdig : isDigitCh c = true :=
      mem_pyNatRepr_isDigit (by rw [hc]; exact List.mem_cons_self _ _)
    obtain ⟨h1, h2⟩ := isDigitCh_ne_sign hdig
    rw [hc]
    show (if c = '-' then _ else if c = '+' then _
      else (parseDigitsAll (c :: cs)).map (fun v => (v : Int))) = some n
    rw [if_neg h1, if_neg h2, ← hc, parseDigitsAll_pyNatRepr]
    show some ((n.toNat : Int)) = some n
    congr 1
    omega

theorem skipWs_cons_not_ws {c : Char} {l : List Char} (h : isWsCh c = false) :
    skipWs (c :: l) = c :: l := by
  simp [skipWs, List.dropWhile_cons, h]

theorem skipWs_ws_append {pre l : List Char} (h : pre.all isWsCh = true) :
    skipWs (pre ++ l) = skipWs l := by
  induction pre with
  | nil => rfl
  | cons c tl ih =>
    rw [List.all_cons, Bool.and_eq_true] at h
    rw [List.cons_append]
    show (c :: (tl ++ l)).dropWhile isWsCh = skipWs l
    rw [List.dropWhile_cons, if_pos h.1]
    exact ih h.2

theorem dropPre_self (p r : List Char) : dropPre p (p ++ r) = some r := by
  induction p with
  | nil => rfl
  | cons c tl ih => simp [dropPre, ih]

theorem takeWhile_all_append {p : Char → Bool} {l r : List Char} (h : l.all p = true) :
    (l ++ r).takeWhile p = l ++ r.takeWhile p := by
  induction l with
  | nil => rfl
  | cons c tl ih =>
    rw [List.all_cons, Bool.and_eq_true] at h
    rw [List.cons_append, List.takeWhile_cons, if_pos h.1, ih h.2, List.cons_append]

theorem dropWhile_all_append {p : Char → Bool} {l r : List Char} (h : l.all p = true) :
    (l ++ r).dropWhile p = r.dropWhile p := by
  induction l with
  | nil => rfl
  | cons c tl ih =>
    rw [List.all_cons, Bool.and_eq_true] at h
    rw [List.cons_append, List.dropWhile_cons, if_pos h.1]
    exact ih h.2

theorem isEmpty_true_iff {α : Type} {l : List α} : l.isEmpty = true ↔ l = [] := by
  cases l <;> simp

theorem takeWhile_stop {r : List Char} (h : stopOk r = true) :
    r.takeWhile isNumCh = [] := by
  cases r with
  | nil => rfl
  | cons c tl =>
    simp only [stopOk, Bool.not_eq_true'] at h
    rw [List.takeWhile_cons, if_neg (by rw [h]; exact fun hf => Bool.noConfusion hf)]

theorem dropWhile_stop {r : List Char} (h : stopOk r = true) :
    r.dropWhile isNumCh = r := by
  cases r with
  | nil => rfl
  | cons c tl =>
    simp only [stopOk, Bool.not_eq_true'] at h
    rw [List.dropWhile_cons, if_neg (by rw [h]; exact fun hf => Bool.noConfusion hf)]

theorem ne_of_numCh {c x : Char} (h : isNumCh c = true) (hx : isNumCh x = false) :
    c ≠ x := by
  rintro rfl
  rw [h] at hx
  exact Bool.noConfusion hx

theorem not_ws_of_numCh {c : Char} (h : isNumCh c = true) : isWsCh c = false := by
  by_contra hw
  rw [Bool.not_eq_false] at hw
  simp only [isWsCh, Bool.or_eq_true, decide_eq_true_eq] at hw
  rcases hw with ((rfl | rfl) | rfl) | rfl <;> exact absurd h (by decide)

theorem numCh_of_digit {c : Char} (h : isDigitCh c = true) : isNumCh c = true := by
  simp [isNumCh, h]

theorem no_dotE_of_digit {c : Char} (h : isDigitCh c = true) :
    (c = '.' || c = 'e' || c = 'E') = false := by
  by_contra hd
  rw [Bool.not_eq_false, Bool.or_eq_true, Bool.or_eq_true] at hd
  simp only [decide_eq_true_eq] at hd
  rcases hd with (rfl | rfl) | rfl <;> exact absurd h (by decide)

theorem pyIntRepr_all_numCh (n : Int) : (pyIntRepr n).all isNumCh = true := by
  unfold pyIntRepr
  split
  · rw [List.all_cons, show isNumCh '-' = true from rfl, Bool.true_and]
    exact List.all_eq_true.mpr fun c hc => numCh_of_digit (mem_pyNatRepr_isDigit hc)
  · exact List.all_eq_true.mpr fun c hc => numCh_of_digit (mem_pyNatRepr_isDigit hc)

theorem pyIntRepr_no_dotE (n : Int) :
    (pyIntRepr n).any (fun c => c = '.' || c = 'e' || c = 'E') = false := by
  rw [Bool.eq_false_iff]
  intro hany
  rw [List.any_eq_true] at hany
  obtain ⟨c, hc, hdot⟩ := hany
  unfold pyIntRepr at hc
  split at hc
  · rw [List.mem_cons] at hc
    rcases hc with rfl | hc
    · exact absurd hdot (by decide)
    · rw [no_dotE_of_digit (mem_pyNatRepr_isDigit hc)] at hdot
      exact Bool.noConfusion hdot
  · rw [no_dotE_of_digit (mem_pyNatRepr_isDigit hc)] at hdot
    exact Bool.noConfusion hdot

theorem pyIntRepr_ne_nil (n : Int) : pyIntRepr n ≠ [] := by
  unfold pyIntRepr
  split
  · exact List.cons_ne_nil _ _
  · exact pyNatRepr_ne_nil _

theorem parseNumber_int (n : Int) {rest : List Char} (h : stopOk rest = true) :
    parseNumber (pyIntRepr n ++ rest) = .ok (.pyInt n, rest) := by
  unfold parseNumber
  rw [takeWhile_all_append (pyIntRepr_all_numCh n), takeWhile_stop h, List.append_nil,
    dropWhile_all_append (pyIntRepr_all_numCh n), dropWhile_stop h]
  rw [if_neg (fun hemp => pyIntRepr_ne_nil n (isEmpty_true_iff.mp hemp)),
    if_neg (by rw [pyIntRepr_no_dotE n]; exact fun hf => Bool.noConfusion hf),
    parsePyInt_pyIntRepr]

theorem parseNumber_float {t : String} (hw : floatTextOk t = true) {rest : List Char}
    (h : stopOk rest = true) : parseNumber (t.data ++ rest) = .ok (.pyFloat t, rest) := by
  unfold floatTextOk at hw
  rw [Bool.and_eq_true, Bool.and_eq_true] at hw
  obtain ⟨⟨hne, hall⟩, hdot⟩ := hw
  have hne2 : ¬(t.data.isEmpty = true) := by
    intro hemp
    rw [hemp] at hne
    exact Bool.noConfusion hne
  unfold parseNumber
  rw [takeWhile_all_append hall, takeWhile_stop h, List.append_nil,
    dropWhile_all_append hall, dropWhile_stop h]
  rw [if_neg hne2, if_pos hdot]

theorem parseStrBody_esc {c : Char} {rest : List Char} (h : (c = '"' || c = '\\') = true) :
    parseStrBody ('\\' :: c :: rest) = (parseStrBody rest).map (fun p => (c :: p.1, p.2)) := by
  simp only [parseStrBody]
  simp [h]

theorem parseStrBody_plain {c : Char} {rest : List Char} (h1 : c ≠ '"') (h2 : c ≠ '\\')
    (h3 : 32 ≤ c.toNat) :
    parseStrBody (c :: rest) = (parseStrBody rest).map (fun p => (c :: p.1, p.2)) := by
  conv_lhs => rw [parseStrBody.eq_def]
  dsimp only
  rw [if_neg h1, if_neg h2, if_neg (by omega)]

theorem parseStrBody_escStr {s rest : List Char} (h : s.all (fun c => 32 ≤ c.toNat) = true) :
    parseStrBody (escStr s ++ '"' :: rest) = .ok (s, rest) := by
  induction s with
  | nil =>
    show parseStrBody ([] ++ '"' :: rest) = .ok ([], rest)
    rw [List.nil_append]
    conv_lhs => rw [parseStrBody.eq_def]
    dsimp only
    rw [if_pos rfl]
  | cons c tl ih =>
    rw [List.all_cons, Bool.and_eq_true, decide_eq_true_eq] at h
    obtain ⟨hc, htl⟩ := h
    unfold escStr
    split
    · next hesc =>
      rw [List.cons_append, List.cons_append, parseStrBody_esc hesc, ih htl]
      rfl
    · next hesc =>
      have hesc2 : c ≠ '"' ∧ c ≠ '\\' := by
        rw [Bool.or_eq_true] at hesc
        push_neg at hesc
        constructor
        · intro hq
          exact hesc.1 (by rw [hq]; rfl)
        · intro hq
          exact hesc.2 (by rw [hq]; rfl)
      rw [List.cons_append, parseStrBody_plain hesc2.1 hesc2.2 hc, ih htl]
      rfl

theorem numCh_fallthrough {c : Char} (h : isNumCh c = true) :
    isWsCh c = false ∧ c ≠ 'n' ∧ c ≠ 't' ∧ c ≠ 'f' ∧ c ≠ '"' ∧ c ≠ '[' ∧ c ≠ '{' :=
  ⟨not_ws_of_numCh h, ne_of_numCh h (by decide), ne_of_numCh h (by decide),
    ne_of_numCh h (by decide), ne_of_numCh h (by decide), ne_of_numCh h (by decide),
    ne_of_numCh h (by decide)⟩

/-- First character of a serialized well-formed value: nonempty, not
whitespace, and not a closing bracket. -/
theorem dumpsV_shape (v : PyVal) (hwf : wfV v = true) :
    ∃ c l, dumpsV v = c :: l ∧ isWsCh c = false ∧ c ≠ ']' ∧ c ≠ '}' := by
  cases v with
  | pyNone => exact ⟨'n', _, rfl, by decide, by decide, by decide⟩
  | pyBool b =>
    cases b
    · exact ⟨'f', _, rfl, by decide, by decide, by decide⟩
    · exact ⟨'t', _, rfl, by decide, by decide, by decide⟩
  | pyInt n =>
    obtain ⟨c, cs, hc⟩ : ∃ c cs, pyIntRepr n = c :: cs := by
      cases h : pyIntRepr n with
      | nil => exact absurd h (pyIntRepr_ne_nil _)
      | cons c cs => exact ⟨c, cs, rfl⟩
    have hnum : isNumCh c = true := by
      have := pyIntRepr_all_numCh n
      rw [hc, List.all_cons, Bool.and_eq_true] at this
      exact this.1
    exact ⟨c, cs, hc, not_ws_of_numCh hnum,
      ne_of_numCh hnum (by decide), ne_of_numCh hnum (by decide)⟩
  | pyFloat t =>
    unfold wfV floatTextOk at hwf
    rw [Bool.and_eq_true, Bool.and_eq_true] at hwf
    obtain ⟨⟨hne, hall⟩, _⟩ := hwf
    obtain ⟨c, cs, hc⟩ : ∃ c cs, t.data = c :: cs := by
      cases h : t.data with
      | nil => rw [h] at hne; exact absurd hne (by decide)
      | cons c cs => exact ⟨c, cs, rfl⟩
    have hnum : isNumCh c = true := by
      rw [hc, List.all_cons, Bool.and_eq_true] at hall
      exact hall.1
    exact ⟨c, cs, hc, not_ws_of_numCh hnum,
      ne_of_numCh hnum (by decide), ne_of_numCh hnum (by decide)⟩
  | pyStr s => exact ⟨'"', _, rfl, by decide, by decide, by decide⟩
  | pyList xs => exact ⟨'[', _, rfl, by decide, by decide, by decide⟩
  | pyTuple xs => exact ⟨'[', _, rfl, by decide, by decide, by decide⟩
  | pyDict kvs => exact ⟨'{', _, rfl, by decide, by decide, by decide⟩

/-- First character of a serialized nonempty element list. -/
theorem dumpsL_shape (v : PyVal) (tl : PyVals) (hwf : wfV v = true) :
    ∃ c l, dumpsL (.cons v tl) = c :: l ∧ isWsCh c = false ∧ c ≠ ']' ∧ c ≠ '}' := by
  obtain ⟨c, l, hd, hws, h1, h2⟩ := dumpsV_shape v hwf
  cases tl with
  | nil => exact ⟨c, l, by rw [show dumpsL (.cons v .nil) = dumpsV v from rfl, hd], hws, h1, h2⟩
  | cons v2 tl2 =>
    refine ⟨c, l ++ ',' :: ' ' :: dumpsL (.cons v2 tl2), ?_, hws, h1, h2⟩
    rw [show dumpsL (.cons v (.cons v2 tl2))
      = dumpsV v ++ ',' :: ' ' :: dumpsL (.cons v2 tl2) from rfl, hd, List.cons_append]

mutual
theorem szV_pos (v : PyVal) : 1 ≤ szV v := by
  cases v <;> simp [szV]
theorem szL_pos (v : PyVal) (tl : PyVals) : 1 ≤ szL (.cons v tl) := by
  simp only [szL]
  omega
end

mutual
theorem szV_le_len (v : PyVal) (h : wfV v = true) : szV v ≤ (dumpsV v).length := by
  cases v with
  | pyNone => decide
  | pyBool b => cases b <;> decide
  | pyInt n =>
    show 1 ≤ (pyIntRepr n).length
    exact List.length_pos.mpr (pyIntRepr_ne_nil n)
  | pyFloat t =>
    unfold wfV floatTextOk at h
    rw [Bool.and_eq_true, Bool.and_eq_true] at h
    show 1 ≤ t.data.length
    refine List.length_pos.mpr ?_
    intro he
    rw [he] at h
    exact absurd h.1.1 (by decide)
  | pyStr s =>
    show 1 ≤ ('"' :: (escStr s.data ++ ['"'])).length
    simp
  | pyList xs =>
    show 1 + szL xs ≤ ('[' :: (dumpsL xs ++ [']'])).length
    have := szL_le_len xs h
    simp only [List.length_cons, List.length_append, List.length_singleton]
    omega
  | pyTuple xs =>
    show 1 + szL xs ≤ ('[' :: (dumpsL xs ++ [']'])).length
    have := szL_le_len xs h
    simp only [List.length_cons, List.length_append, List.length_singleton]
    omega
  | pyDict kvs =>
    show 1 + szP kvs ≤ ('{' :: (dumpsP kvs ++ ['}'])).length
    have := szP_le_len kvs h
    simp only [List.length_cons, List.length_append, List.length_singleton]
    omega
theorem szL_le_len (xs : PyVals) (h : wfL xs = true) : szL xs ≤ (dumpsL xs).length + 1 := by
  cases xs with
  | nil => decide
  | cons v tl =>
    unfold wfL at h
    rw [Bool.and_eq_true] at h
    cases tl with
    | nil =>
      show 1 + szV v + szL .nil ≤ (dumpsV v).length + 1
      have := szV_le_len v h.1
      simp only [szL]
      omega
    | cons v2 tl2 =>
      show 1 + szV v + szL (.cons v2 tl2)
        ≤ (dumpsV v ++ ',' :: ' ' :: dumpsL (.cons v2 tl2)).length + 1
      have h1 := szV_le_len v h.1
      have h2 := szL_le_len (.cons v2 tl2) h.2
      simp only [List.length_append, List.length_cons]
      omega
theorem szP_le_len (kvs : PyPairs) (h : wfP kvs = true) : szP kvs ≤ (dumpsP kvs).length + 1 := by
  cases kvs with
  | nil => decide
  | cons k v tl =>
    unfold wfP at h
    rw [Bool.and_eq_true, Bool.and_eq_true] at h
    cases tl with
    | nil =>
      show 1 + szV v + szP .nil ≤ ('"' :: (escStr k.data ++ '"' :: ':' :: ' ' :: dumpsV v)).length + 1
      have := szV_le_len v h.1.2
      simp only [szP, List.length_cons, List.length_append]
      omega
    | cons k2 v2 tl2 =>
      show 1 + szV v + szP (.cons k2 v2 tl2)
        ≤ ('"' :: (escStr k.data
            ++ '"' :: ':' :: ' ' :: dumpsV v ++ ',' :: ' ' :: dumpsP (.cons k2 v2 tl2))).length + 1
      have h1 := szV_le_len v h.1.2
      have h2 := szP_le_len (.cons k2 v2 tl2) h.2
      simp only [List.length_cons, List.length_append]
      omega
end

/-! ### One-step unfolding lemmas for the parser -/
theorem parseVal_null (fuel : Nat) (cs l : List Char)
    (h : skipWs cs = 'n' :: (('u' :: 'l' :: 'l' :: []) ++ l)) :
    parseVal (fuel + 1) cs = .ok (.pyNone, l) := by
  simp only [parseVal, h]
  rw [if_pos trivial, dropPre_self]

theorem parseVal_true (fuel : Nat) (cs l : List Char)
    (h : skipWs cs = 't' :: (('r' :: 'u' :: 'e' :: []) ++ l)) :
    parseVal (fuel + 1) cs = .ok (.pyBool true, l) := by
  simp only [parseVal, h]
  rw [if_neg (by decide), if_pos trivial, dropPre_self]

theorem parseVal_false (fuel : Nat) (cs l : List Char)
    (h : skipWs cs = 'f' :: (('a' :: 'l' :: 's' :: 'e' :: []) ++ l)) :
    parseVal (fuel + 1) cs = .ok (.pyBool false, l) := by
  simp only [parseVal, h]
  rw [if_neg (by decide), if_neg (by decide), if_pos trivial, dropPre_self]

theorem parseVal_string (fuel : Nat) (cs l : List Char) (h : skipWs cs = '"' :: l) :
    parseVal (fuel + 1) cs = (parseStrBody l).map (fun p => (.pyStr ⟨p.1⟩, p.2)) := by
  simp only [parseVal, h]
  rw [if_neg (by decide), if_neg (by decide), if_neg (by decide), if_pos trivial]

theorem parseVal_arr (fuel : Nat) (cs l : List Char) (h : skipWs cs = '[' :: l) :
    parseVal (fuel + 1) cs =
      match skipWs l with
      | ']' :: r2 => .ok (.pyList .nil, r2)
      | cs2 => (parseElems fuel cs2).map (fun p => (.pyList p.1, p.2)) := by
  simp only [parseVal, h]
  rw [if_neg (by decide), if_neg (by decide), if_neg (by decide), if_neg (by decide),
    if_pos trivial]

theorem parseVal_obj (fuel : Nat) (cs l : List Char) (h : skipWs cs = '{' :: l) :
    parseVal (fuel + 1) cs =
      match skipWs l with
      | '}' :: r2 => .ok (.pyDict .nil, r2)
      | cs2 => (parseMembers fuel cs2).map (fun p => (.pyDict p.1, p.2)) := by
  simp only [parseVal, h]
  rw [if_neg (by decide), if_neg (by decide), if_neg (by decide), if_neg (by decide),
    if_neg (by decide), if_pos trivial]

theorem parseVal_number (fuel : Nat) (cs : List Char) (c : Char) (l : List Char)
    (h : skipWs cs = c :: l) (hnum : isNumCh c = true) :
    parseVal (fuel + 1) cs = parseNumber (c :: l) := by
  obtain ⟨_, hn, ht, hf, hq, hb, hcu⟩ := numCh_fallthrough hnum
  simp only [parseVal, h]
  rw [if_neg hn, if_neg ht, if_neg hf, if_neg hq, if_neg hb, if_neg hcu]

theorem parseElems_succ (fuel : Nat) (cs : List Char) (v : PyVal) (r : List Char)
    (h : parseVal fuel cs = .ok (v, r)) :
    parseElems (fuel + 1) cs =
      match skipWs r with
      | ',' :: r2 => (parseElems fuel r2).map (fun p => (PyVals.cons v p.1, p.2))
      | ']' :: r2 => .ok (.cons v .nil, r2)
      | _ => .error (.valueError "Expecting delimiter") := by
  simp only [parseElems, h]

theorem parseMembers_succ (fuel : Nat) (cs r0 : List Char) (k : List Char) (r1 r2 : List Char)
    (v : PyVal) (r3 : List Char)
    (h1 : skipWs cs = '"' :: r0) (h2 : parseStrBody r0 = .ok (k, r1))
    (h3 : skipWs r1 = ':' :: r2) (h4 : parseVal fuel r2 = .ok (v, r3)) :
    parseMembers (fuel + 1) cs =
      match skipWs r3 with
      | ',' :: r4 => (parseMembers fuel r4).map (fun p => (PyPairs.cons ⟨k⟩ v p.1, p.2))
      | '}' :: r4 => .ok (.cons ⟨k⟩ v .nil, r4)
      | _ => .error (.valueError "Expecting delimiter") := by
  simp only [parseMembers, h1, h2, h3, h4]

/-- The parser reads back exactly what the serializer wrote, for every
well-formed tuple-free value, whatever whitespace precedes it and whatever
non-number continuation follows it. -/
theorem parse_dumps_fuel (fuel : Nat) :
    (∀ v pre rest, wfV v = true → tupleFreeV v = true → szV v ≤ fuel →
      pre.all isWsCh = true → stopOk rest = true →
      parseVal fuel (pre ++ dumpsV v ++ rest) = .ok (v, rest)) ∧
    (∀ v tl pre rest, wfL (.cons v tl) = true → tupleFreeL (.cons v tl) = true →
      szL (.cons v tl) ≤ fuel → pre.all isWsCh = true →
      parseElems fuel (pre ++ dumpsL (.cons v tl) ++ ']' :: rest) = .ok (.cons v tl, rest)) ∧
    (∀ k v tl pre rest, wfP (.cons k v tl) = true → tupleFreeP (.cons k v tl) = true →
      szP (.cons k v tl) ≤ fuel → pre.all isWsCh = true →
      parseMembers fuel (pre ++ dumpsP (.cons k v tl) ++ '}' :: rest)
        = .ok (.cons k v tl, rest)) := by
  induction fuel with
  | zero =>
    refine ⟨fun v _ _ _ _ hsz _ _ => absurd hsz (by have := szV_pos v; omega),
      fun v tl _ _ _ _ hsz _ => absurd hsz (by have := szL_pos v tl; omega),
      fun k v tl _ _ _ _ hsz _ => absurd hsz (by simp only [szP]; omega)⟩
  | succ fuel ih =>
    obtain ⟨ihV, ihL, ihP⟩ := ih
    refine ⟨?_, ?_, ?_⟩
    -- parseVal
    · intro v pre rest hwf htf hsz hpre hstop
      have hskip : skipWs (pre ++ dumpsV v ++ rest) = dumpsV v ++ rest := by
        obtain ⟨c0, l0, hdv, hws, _, _⟩ := dumpsV_shape v hwf
        rw [List.append_assoc, skipWs_ws_append hpre, hdv, List.cons_append,
          skipWs_cons_not_ws hws, ← List.cons_append, ← hdv]
      cases v with
      | pyNone => exact parseVal_null fuel _ rest (by rw [hskip]; rfl)
      | pyBool b =>
        cases b with
        | true => exact parseVal_true fuel _ rest (by rw [hskip]; rfl)
        | false => exact parseVal_false fuel _ rest (by rw [hskip]; rfl)
      | pyInt n =>
        obtain ⟨c, cs', hc⟩ : ∃ c cs', pyIntRepr n = c :: cs' := by
          cases h : pyIntRepr n with
          | nil => exact absurd h (pyIntRepr_ne_nil _)
          | cons c cs' => exact ⟨c, cs', rfl⟩
        have hnum : isNumCh c = true := by
          have := pyIntRepr_all_numCh n
          rw [hc, List.all_cons, Bool.and_eq_true] at this
          exact this.1
        rw [parseVal_number fuel _ c (cs' ++ rest)
          (by rw [hskip, show dumpsV (.pyInt n) = pyIntRepr n from rfl, hc,
            List.cons_append]) hnum, ← List.cons_append, ← hc]
        exact parseNumber_int n hstop
      | pyFloat t =>
        have hwf2 : floatTextOk t = true := hwf
        obtain ⟨c, cs', hc⟩ : ∃ c cs', t.data = c :: cs' := by
          have hcopy := hwf2
          unfold floatTextOk at hcopy
          rw [Bool.and_eq_true, Bool.and_eq_true] at hcopy
          cases h : t.data with
          | nil => rw [h] at hcopy; exact absurd hcopy.1.1 (by decide)
          | cons c cs' => exact ⟨c, cs', rfl⟩
        have hnum : isNumCh c = true := by
          have hcopy := hwf2
          unfold floatTextOk at hcopy
          rw [Bool.and_eq_true, Bool.and_eq_true] at hcopy
          have := hcopy.1.2
          rw [hc, List.all_cons, Bool.and_eq_true] at this
          exact this.1
        rw [parseVal_number fuel _ c (cs' ++ rest)
          (by rw [hskip, show dumpsV (.pyFloat t) = t.data from rfl, hc,
            List.cons_append]) hnum, ← List.cons_append, ← hc]
        exact parseNumber_float hwf2 hstop
      | pyStr s =>
        have he : dumpsV (.pyStr s) ++ rest = '"' :: (escStr s.data ++ '"' :: rest) := by
          show ('"' :: (escStr s.data ++ ['"'])) ++ rest = _
          rw [List.cons_append, List.append_assoc, List.singleton_append]
        rw [parseVal_string fuel _ _ (hskip.trans he), parseStrBody_escStr hwf]
        rfl
      | pyList xs =>
        have he : dumpsV (.pyList xs) ++ rest = '[' :: (dumpsL xs ++ ']' :: rest) := by
          show ('[' :: (dumpsL xs ++ [']'])) ++ rest = _
          rw [List.cons_append, List.append_assoc, List.singleton_append]
        rw [parseVal_arr fuel _ _ (hskip.trans he)]
        cases xs with
        | nil =>
          rw [show dumpsL PyVals.nil = ([] : List Char) from rfl, List.nil_append,
            skipWs_cons_not_ws (by decide)]
          rfl
        | cons v' tl =>
          have hwfl : wfL (.cons v' tl) = true := hwf
          have hwfv : wfV v' = true := by
            unfold wfL at hwfl
            rw [Bool.and_eq_true] at hwfl
            exact hwfl.1
          obtain ⟨c1, l1, hdl, hws1, hne1, _⟩ := dumpsL_shape v' tl hwfv
          rw [hdl, List.cons_append, skipWs_cons_not_ws hws1]
          have hres := ihL v' tl [] rest hwf htf (by
            have h1 : szV (PyVal.pyList (.cons v' tl)) = 1 + szL (.cons v' tl) := rfl
            omega) rfl
          rw [List.nil_append, hdl, List.cons_append] at hres
          split
          · next r2 heq =>
            injection heq with hh _
            exact absurd hh hne1
          · rw [hres]
            rfl
      | pyTuple xs =>
        simp [tupleFreeV] at htf
      | pyDict kvs =>
        have he : dumpsV (.pyDict kvs) ++ rest = '{' :: (dumpsP kvs ++ '}' :: rest) := by
          show ('{' :: (dumpsP kvs ++ ['}'])) ++ rest = _
          rw [List.cons_append, List.append_assoc, List.singleton_append]
        rw [parseVal_obj fuel _ _ (hskip.trans he)]
        cases kvs with
        | nil =>
          rw [show dumpsP PyPairs.nil = ([] : List Char) from rfl, List.nil_append,
            skipWs_cons_not_ws (by decide)]
          rfl
        | cons k v' tl =>
          have hdp : ∃ l1, dumpsP (.cons k v' tl) = '"' :: l1 := by
            cases tl with
            | nil => exact ⟨_, rfl⟩
            | cons k2 v2 tl2 => exact ⟨_, rfl⟩
          obtain ⟨l1, hdp⟩ := hdp
          rw [hdp, List.cons_append, skipWs_cons_not_ws (by decide)]
          have hres := ihP k v' tl [] rest hwf htf (by
            have h1 : szV (PyVal.pyDict (.cons k v' tl)) = 1 + szP (.cons k v' tl) := rfl
            omega) rfl
          rw [List.nil_append, hdp, List.cons_append] at hres
          split
          · next r2 heq =>
            injection heq with hh _
            exact absurd hh (by decide)
          · rw [hres]
            rfl
    -- parseElems
    · intro v tl pre rest hwf htf hsz hpre
      have hwf2 : wfV v = true ∧ wfL tl = true := by
        have h0 : wfL (.cons v tl) = true := hwf
        unfold wfL at h0
        rw [Bool.and_eq_true] at h0
        exact h0
      have htf2 : tupleFreeV v = true ∧ tupleFreeL tl = true := by
        have h0 : tupleFreeL (.cons v tl) = true := htf
        unfold tupleFreeL at h0
        rw [Bool.and_eq_true] at h0
        exact h0
      have hszv : szV v ≤ fuel := by
        have h0 : szL (PyVals.cons v tl) = 1 + szV v + szL tl := rfl
        omega
      cases tl with
      | nil =>
        have hres : parseVal fuel (pre ++ dumpsL (.cons v .nil) ++ ']' :: rest)
            = .ok (v, ']' :: rest) :=
          ihV v pre (']' :: rest) hwf2.1 htf2.1 hszv hpre rfl
        rw [parseElems_succ fuel _ v (']' :: rest) hres, skipWs_cons_not_ws (by decide)]
        rfl
      | cons v2 tl2 =>
        have hassoc : pre ++ dumpsL (.cons v (.cons v2 tl2)) ++ ']' :: rest
            = pre ++ dumpsV v ++ (',' :: ' ' :: (dumpsL (.cons v2 tl2) ++ ']' :: rest)) := by
          rw [show dumpsL (.cons v (.cons v2 tl2))
            = dumpsV v ++ ',' :: ' ' :: dumpsL (.cons v2 tl2) from rfl]
          simp only [List.append_assoc, List.cons_append]
        rw [hassoc]
        have hres := ihV v pre (',' :: ' ' :: (dumpsL (.cons v2 tl2) ++ ']' :: rest))
          hwf2.1 htf2.1 hszv hpre rfl
        rw [parseElems_succ fuel _ v _ hres, skipWs_cons_not_ws (by decide)]
        show (parseElems fuel (' ' :: (dumpsL (.cons v2 tl2) ++ ']' :: rest))).map
          (fun p => (PyVals.cons v p.1, p.2)) = .ok (.cons v (.cons v2 tl2), rest)
        have hres2 := ihL v2 tl2 [' '] rest hwf2.2 htf2.2 (by
          have h0 : szL (PyVals.cons v (.cons v2 tl2))
            = 1 + szV v + szL (.cons v2 tl2) := rfl
          omega) rfl
        rw [show ([' '] ++ dumpsL (.cons v2 tl2) ++ ']' :: rest : List Char)
          = ' ' :: (dumpsL (.cons v2 tl2) ++ ']' :: rest) from rfl] at hres2
        rw [hres2]
        rfl
    -- parseMembers
    · intro k v tl pre rest hwf htf hsz hpre
      have hwf2 : noCtl k = true ∧ wfV v = true ∧ wfP tl = true := by
        have h0 : wfP (.cons k v tl) = true := hwf
        unfold wfP at h0
        rw [Bool.and_eq_true, Bool.and_eq_true] at h0
        exact ⟨h0.1.1, h0.1.2, h0.2⟩
      have htf2 : tupleFreeV v = true ∧ tupleFreeP tl = true := by
        have h0 : tupleFreeP (.cons k v tl) = true := htf
        unfold tupleFreeP at h0
        rw [Bool.and_eq_true] at h0
        exact h0
      have hszv : szV v ≤ fuel := by
        have h0 : szP (PyPairs.cons k v tl) = 1 + szV v + szP tl := rfl
        omega
      cases tl with
      | nil =>
        have hform : pre ++ dumpsP (.cons k v .nil) ++ '}' :: rest
            = pre ++ '"' :: (escStr k.data ++ '"' :: (':' :: (' ' :: (dumpsV v
              ++ '}' :: rest)))) := by
          rw [show dumpsP (.cons k v .nil)
            = '"' :: escStr k.data ++ '"' :: ':' :: ' ' :: dumpsV v from rfl]
          simp only [List.append_assoc, List.cons_append]
        rw [hform]
        have h1 : skipWs (pre ++ '"' :: (escStr k.data ++ '"' :: (':' :: (' ' :: (dumpsV v
            ++ '}' :: rest)))))
            = '"' :: (escStr k.data ++ '"' :: (':' :: (' ' :: (dumpsV v ++ '}' :: rest)))) := by
          rw [skipWs_ws_append hpre, skipWs_cons_not_ws (by decide)]
        have h2 := @parseStrBody_escStr k.data
          (':' :: (' ' :: (dumpsV v ++ '}' :: rest))) hwf2.1
        have h3 : skipWs (':' :: (' ' :: (dumpsV v ++ '}' :: rest)))
            = ':' :: (' ' :: (dumpsV v ++ '}' :: rest)) := skipWs_cons_not_ws (by decide)
        have h4 : parseVal fuel (' ' :: (dumpsV v ++ '}' :: rest)) = .ok (v, '}' :: rest) :=
          ihV v [' '] ('}' :: rest) hwf2.2.1 htf2.1 hszv rfl rfl
        rw [parseMembers_succ fuel _ _ k.data _ _ v _ h1 h2 h3 h4,
          skipWs_cons_not_ws (by decide)]
        rfl
      | cons k2 v2 tl2 =>
        have hform : pre ++ dumpsP (.cons k v (.cons k2 v2 tl2)) ++ '}' :: rest
            = pre ++ '"' :: (escStr k.data ++ '"' :: (':' :: (' ' :: (dumpsV v
              ++ ',' :: ' ' :: (dumpsP (.cons k2 v2 tl2) ++ '}' :: rest))))) := by
          rw [show dumpsP (.cons k v (.cons k2 v2 tl2))
            = '"' :: escStr k.data ++ '"' :: ':' :: ' ' :: dumpsV v
              ++ ',' :: ' ' :: dumpsP (.cons k2 v2 tl2) from rfl]
          simp only [List.append_assoc, List.cons_append]
        rw [hform]
        have h1 : skipWs (pre ++ '"' :: (escStr k.data ++ '"' :: (':' :: (' ' :: (dumpsV v
            ++ ',' :: ' ' :: (dumpsP (.cons k2 v2 tl2) ++ '}' :: rest))))))
            = '"' :: (escStr k.data ++ '"' :: (':' :: (' ' :: (dumpsV v
              ++ ',' :: ' ' :: (dumpsP (.cons k2 v2 tl2) ++ '}' :: rest))))) := by
          rw [skipWs_ws_append hpre, skipWs_cons_not_ws (by decide)]
        have h2 := @parseStrBody_escStr k.data
          (':' :: (' ' :: (dumpsV v
            ++ ',' :: ' ' :: (dumpsP (.cons k2 v2 tl2) ++ '}' :: rest)))) hwf2.1
        have h3 : skipWs (':' :: (' ' :: (dumpsV v
            ++ ',' :: ' ' :: (dumpsP (.cons k2 v2 tl2) ++ '}' :: rest))))
            = ':' :: (' ' :: (dumpsV v
              ++ ',' :: ' ' :: (dumpsP (.cons k2 v2 tl2) ++ '}' :: rest))) :=
          skipWs_cons_not_ws (by decide)
        have h4 : parseVal fuel (' ' :: (dumpsV v
            ++ ',' :: ' ' :: (dumpsP (.cons k2 v2 tl2) ++ '}' :: rest)))
            = .ok (v, ',' :: ' ' :: (dumpsP (.cons k2 v2 tl2) ++ '}' :: rest)) :=
          ihV v [' '] (',' :: ' ' :: (dumpsP (.cons k2 v2 tl2) ++ '}' :: rest))
            hwf2.2.1 htf2.1 hszv rfl rfl
        rw [parseMembers_succ fuel _ _ k.data _ _ v _ h1 h2 h3 h4,
          skipWs_cons_not_ws (by decide)]
        show (parseMembers fuel (' ' :: (dumpsP (.cons k2 v2 tl2) ++ '}' :: rest))).map
          (fun p => (PyPairs.cons ⟨k.data⟩ v p.1, p.2))
          = .ok (.cons k v (.cons k2 v2 tl2), rest)
        have hres2 := ihP k2 v2 tl2 [' '] rest hwf2.2.2 htf2.2 (by
          have h0 : szP (PyPairs.cons k v (.cons k2 v2 tl2))
            = 1 + szV v + szP (.cons k2 v2 tl2) := rfl
          omega) rfl
        rw [show ([' '] ++ dumpsP (.cons k2 v2 tl2) ++ '}' :: rest : List Char)
          = ' ' :: (dumpsP (.cons k2 v2 tl2) ++ '}' :: rest) from rfl] at hres2
        rw [hres2]
        rfl

/-- `json.loads ∘ json.dumps` is the identity on well-formed tuple-free
values. -/
theorem pyLoads_dumpsV (v : PyVal) (hwf : wfV v = true) (htf : tupleFreeV v = true) :
    pyLoads ⟨dumpsV v⟩ = .ok v := by
  unfold pyLoads
  have hsz : szV v ≤ (dumpsV v).length + 1 :=
    le_trans (szV_le_len v hwf) (Nat.le_succ _)
  have h := (parse_dumps_fuel ((dumpsV v).length + 1)).1 v [] [] hwf htf hsz rfl rfl
  rw [List.nil_append, List.append_nil] at h
  rw [show (String.mk (dumpsV v)).length = (dumpsV v).length from rfl,
    show (String.mk (dumpsV v)).data = dumpsV v from rfl, h]
  rfl

theorem decodeTag_i (raw : String) : decodeTag 'i' raw
    = match parsePyInt raw.data with
      | some n => .ok (.pyInt n)
      | none => .error (.valueError ("invalid literal for int() with base 10: " ++ raw)) := rfl

theorem decodeTag_f (raw : String) : decodeTag 'f' raw = parsePyFloat raw := rfl

theorem decodeTag_A (raw : String) : decodeTag 'A' raw = .ok (.pyStr raw) := rfl

theorem decodeTag_Z (raw : String) : decodeTag 'Z' raw = .ok (.pyStr raw) := rfl

theorem decodeTag_J (raw : String) : decodeTag 'J' raw = pyLoads raw := rfl

theorem decodeTag_H (raw : String) : decodeTag 'H' raw = .error .notImplementedError := rfl

theorem decodeTag_B (raw : String) : decodeTag 'B' raw = .error .notImplementedError := rfl

theorem decodeTag_other {c : Char} (h : c ∉ (['i', 'f', 'A', 'Z', 'J', 'H', 'B'] : List Char))
    (raw : String) : decodeTag c raw
      = .error (.valueError ("Type identifier " ++ String.mk [c]
          ++ " is not in the GFA standard")) := by
  simp only [List.mem_cons, List.not_mem_nil, or_false, not_or] at h
  obtain ⟨h1, h2, h3, h4, h5, h6, h7⟩ := h
  unfold decodeTag get_gfa_type
  rw [if_neg h1, if_neg h2, if_neg (by simp [h3, h4]), if_neg h5, if_neg (by simp [h6, h7])]

mutual
theorem jsonDumpable_total_V (v : PyVal) : jsonDumpableV v = true := by
  cases v with
  | pyNone => rfl
  | pyBool b => rfl
  | pyInt n => rfl
  | pyFloat t => rfl
  | pyStr s => rfl
  | pyList xs => exact jsonDumpable_total_L xs
  | pyTuple xs => exact jsonDumpable_total_L xs
  | pyDict kvs => exact jsonDumpable_total_P kvs
theorem jsonDumpable_total_L (xs : PyVals) : jsonDumpableL xs = true := by
  cases xs with
  | nil => rfl
  | cons v tl =>
    show (jsonDumpableV v && jsonDumpableL tl) = true
    rw [jsonDumpable_total_V v, jsonDumpable_total_L tl]
    rfl
theorem jsonDumpable_total_P (kvs : PyPairs) : jsonDumpableP kvs = true := by
  cases kvs with
  | nil => rfl
  | cons k v tl =>
    show (jsonDumpableV v && jsonDumpableP tl) = true
    rw [jsonDumpable_total_V v, jsonDumpable_total_P tl]
    rfl
end

/-- Claim C4, counterexample: the tuple `(1, 2)` is a native JSON-serializable
value; the encoder tags it `'J'` and writes `"[1, 2]"`, but decoding that text
returns the list `[1, 2]`, which is not equal to the tuple.  So the round trip
of the claim fails on tuples. -/
theorem C4_tuple_counterexample :
    get_python_type (.pyTuple (.cons (.pyInt 1) (.cons (.pyInt 2) .nil))) = .ok 'J' ∧
    set_gfa_type_apply 'J' (.pyTuple (.cons (.pyInt 1) (.cons (.pyInt 2) .nil))) = "[1, 2]" ∧
    decodeTag 'J' "[1, 2]" = .ok (.pyList (.cons (.pyInt 1) (.cons (.pyInt 2) .nil))) ∧
    PyVal.pyList (.cons (.pyInt 1) (.cons (.pyInt 2) .nil))
      ≠ .pyTuple (.cons (.pyInt 1) (.cons (.pyInt 2) .nil)) := by
  refine ⟨rfl, by decide, rfl, fun h => PyVal.noConfusion h⟩

/-- Claim C4 (amended): for every native value of a supported type that is not
a boolean and contains no tuple - i.e. integers, floats (identified with their
canonical repr text, the "textual round-trip precision" the claim concedes),
strings, and JSON-canonical structures built from them with lists and
string-keyed dicts - decoding the textual form with the type letter chosen by
the encoder returns the value unchanged. -/
theorem C4_tag_roundtrip (v : PyVal) (hwf : wfV v = true) (htf : tupleFreeV v = true)
    (hnb : ∀ b, v ≠ .pyBool b) (letter : Char) (hl : get_python_type v = .ok letter) :
    decodeTag letter (set_gfa_type_apply letter v) = .ok v := by
  cases v with
  | pyNone =>
    have h2 : Except.ok ('J' : Char) = Except.ok letter := hl
    injection h2 with h3
    subst h3
    show decodeTag 'J' ⟨dumpsV .pyNone⟩ = .ok .pyNone
    rw [decodeTag_J]
    exact pyLoads_dumpsV _ rfl rfl
  | pyBool b => exact absurd rfl (hnb b)
  | pyInt n =>
    have h2 : Except.ok ('i' : Char) = Except.ok letter := hl
    injection h2 with h3
    subst h3
    show decodeTag 'i' ⟨pyIntRepr n⟩ = .ok (.pyInt n)
    rw [decodeTag_i, show (String.mk (pyIntRepr n)).data = pyIntRepr n from rfl,
      parsePyInt_pyIntRepr]
  | pyFloat t =>
    have h2 : Except.ok ('f' : Char) = Except.ok letter := hl
    injection h2 with h3
    subst h3
    show decodeTag 'f' t = .ok (.pyFloat t)
    rw [decodeTag_f]
    unfold parsePyFloat
    rw [if_pos (show floatTextOk t = true from hwf)]
  | pyStr s =>
    have h2 : Except.ok ('Z' : Char) = Except.ok letter := hl
    injection h2 with h3
    subst h3
    exact decodeTag_Z s
  | pyList xs =>
    have h2 : (Except.ok 'J' : Except PyErr Char) = Except.ok letter := by
      rw [← hl]
      show (Except.ok 'J' : Except PyErr Char)
        = if jsonDumpableV (.pyList xs) then .ok 'J' else .error (.valueError "is not in the GFA standard")
      rw [if_pos (jsonDumpable_total_V (.pyList xs))]
    injection h2 with h3
    subst h3
    show decodeTag 'J' ⟨dumpsV (.pyList xs)⟩ = .ok (.pyList xs)
    rw [decodeTag_J]
    exact pyLoads_dumpsV _ hwf htf
  | pyTuple xs => simp [tupleFreeV] at htf
  | pyDict kvs =>
    have h2 : (Except.ok 'J' : Except PyErr Char) = Except.ok letter := by
      rw [← hl]
      show (Except.ok 'J' : Except PyErr Char)
        = if jsonDumpableV (.pyDict kvs) then .ok 'J' else .error (.valueError "is not in the GFA standard")
      rw [if_pos (jsonDumpable_total_V (.pyDict kvs))]
    injection h2 with h3
    subst h3
    show decodeTag 'J' ⟨dumpsV (.pyDict kvs)⟩ = .ok (.pyDict kvs)
    rw [decodeTag_J]
    exact pyLoads_dumpsV _ hwf htf

/-- Witness for C4 at the concrete value `[5, "ab"]`. -/
theorem C4_witness :
    decodeTag 'J' (set_gfa_type_apply 'J' (.pyList (.cons (.pyInt 5) (.cons (.pyStr "ab") .nil))))
      = .ok (.pyList (.cons (.pyInt 5) (.cons (.pyStr "ab") .nil))) :=
  C4_tag_roundtrip (.pyList (.cons (.pyInt 5) (.cons (.pyStr "ab") .nil)))
    (by decide) (by decide) (fun b h => PyVal.noConfusion h) 'J' rfl

/-- Claim C5: the decoder's behaviour per type letter: `'i'` yields an
integer, `'f'` a float, `'A'`/`'Z'` the raw text as a string, `'J'` the JSON
parse of the text; `'H'`/`'B'` always fail with the unsupported-tag-type error
(`NotImplementedError`), and every other letter always fails with the format
error (`ValueError`). -/
theorem C5_decoder_letters (c : Char) (raw : String) :
    (c = 'i' → ∀ v, decodeTag c raw = .ok v → ∃ n, v = .pyInt n) ∧
    (c = 'f' → ∀ v, decodeTag c raw = .ok v → ∃ t, v = .pyFloat t) ∧
    ((c = 'A' ∨ c = 'Z') → decodeTag c raw = .ok (.pyStr raw)) ∧
    (c = 'J' → decodeTag c raw = pyLoads raw) ∧
    ((c = 'H' ∨ c = 'B') → decodeTag c raw = .error .notImplementedError) ∧
    (c ∉ (['i', 'f', 'A', 'Z', 'J', 'H', 'B'] : List Char) →
      decodeTag c raw = .error (.valueError ("Type identifier " ++ String.mk [c]
        ++ " is not in the GFA standard"))) := by
  refine ⟨?_, ?_, ?_, ?_, ?_, ?_⟩
  · rintro rfl v h
    rw [decodeTag_i] at h
    split at h
    · next n _ =>
      injection h with h2
      exact ⟨n, h2.symm⟩
    · exact absurd h (by simp)
  · rintro rfl v h
    rw [decodeTag_f] at h
    unfold parsePyFloat at h
    split at h
    · injection h with h2
      exact ⟨raw, h2.symm⟩
    · exact absurd h (by simp)
  · rintro (rfl | rfl)
    · exact decodeTag_A raw
    · exact decodeTag_Z raw
  · rintro rfl
    exact decodeTag_J raw
  · rintro (rfl | rfl)
    · exact decodeTag_H raw
    · exact decodeTag_B raw
  · intro h
    exact decodeTag_other h raw

/-- Witness for C5 at concrete letters: `'i'` on `"42"` yields the integer 42,
`'H'` fails as unsupported, and `'Q'` fails as a format error. -/
theorem C5_witness :
    decodeTag 'i' "42" = .ok (.pyInt 42) ∧
    decodeTag 'H' "zz" = .error .notImplementedError ∧
    decodeTag 'Q' "zz" = .error (.valueError ("Type identifier " ++ String.mk ['Q']
      ++ " is not in the GFA standard")) :=
  ⟨rfl, (C5_decoder_letters 'H' "zz").2.2.2.2.1 (Or.inl rfl),
    (C5_decoder_letters 'Q' "zz").2.2.2.2.2 (by decide)⟩

theorem str_eq_empty_of_data {s : String} (h : s.data = []) : s = "" := by
  cases s with
  | mk d =>
    subst h
    rfl

theorem get_gfa_format_eval (f : FSFile) (h1 : f.onDisk = true)
    (h2 : (strEndsWith f.name ".gfa" || strEndsWith f.name ".gfa.gz") = true)
    (h3 : f.content ≠ "") {c : Char} {l : List Char} (hdata : f.content.data = c :: l) :
    get_gfa_format f =
      if c ≠ 'H' then .ok "rGFA"
      else
        match vnTag f.content with
        | .error e => .error e
        | .ok none => .ok "rGFA"
        | .ok (some v) =>
          if pyEqStr v "1.0" then .ok "GFA1"
          else if pyEqStr v "1.1" then .ok "GFA1.1"
          else if pyEqStr v "1.2" then .ok "GFA1.2"
          else if pyEqStr v "2.0" then .ok "GFA2"
          else .ok "unknown" := by
  unfold get_gfa_format
  rw [h1, h2, if_neg h3, hdata]
  rfl

theorem head_eq_of_firstLine_eq {c1 c2 : String} (h : firstLine c1 = firstLine c2)
    (h1 : c1 ≠ "") (h2 : c2 ≠ "") : c1.data.head? = c2.data.head? := by
  have hd := congrArg String.data h
  unfold firstLine at hd
  rw [show (String.mk (c1.data.takeWhile (· ≠ '\n'))).data
      = c1.data.takeWhile (· ≠ '\n') from rfl,
    show (String.mk (c2.data.takeWhile (· ≠ '\n'))).data
      = c2.data.takeWhile (· ≠ '\n') from rfl] at hd
  cases d1 : c1.data with
  | nil => exact absurd (str_eq_empty_of_data d1) h1
  | cons a l1 =>
    cases d2 : c2.data with
    | nil => exact absurd (str_eq_empty_of_data d2) h2
    | cons b l2 =>
      rw [d1, d2, List.takeWhile_cons, List.takeWhile_cons] at hd
      by_cases ha : a = '\n'
      · by_cases hb : b = '\n'
        · rw [ha, hb]
          rfl
        · rw [if_neg (by simp [ha]), if_pos (by simp [hb])] at hd
          exact absurd hd.symm (List.cons_ne_nil _ _)
      · by_cases hb : b = '\n'
        · rw [if_pos (by simp [ha]), if_neg (by simp [hb])] at hd
          exact absurd hd (List.cons_ne_nil _ _)
        · rw [if_pos (by simp [ha]), if_pos (by simp [hb])] at hd
          injection hd with he _
          rw [he]
          rfl

/-- Claim C6: the format detector classifies from the first line only.  After
the preflight checks pass, a first line not starting the header kind gives
rGFA; a header first line with version tag "1.0"/"1.1"/"1.2"/"2.0" gives
GFA1/GFA1.1/GFA1.2/GFA2 and any other version value gives "unknown"; a
missing path, a bad suffix or an empty file fails before any line is read
(the error does not depend on the content). -/
theorem C6_format_detector (f : FSFile) :
    (f.onDisk = false → get_gfa_format f
      = .error (.osError "Specified file does not exists. Please check provided path.")) ∧
    (f.onDisk = true → (strEndsWith f.name ".gfa" || strEndsWith f.name ".gfa.gz") = false →
      get_gfa_format f = .error (.ioError "File descriptor is invalid. Please check format, this lib is designed to work with Graphical Fragment Assembly (GFA) files.")) ∧
    (f.onDisk = true → (strEndsWith f.name ".gfa" || strEndsWith f.name ".gfa.gz") = true →
      f.content = "" → get_gfa_format f = .error (.ioError "File is empty.")) ∧
    (∀ c l, f.onDisk = true → (strEndsWith f.name ".gfa" || strEndsWith f.name ".gfa.gz") = true →
      f.content.data = c :: l → c ≠ 'H' → get_gfa_format f = .ok "rGFA") ∧
    (∀ l, f.onDisk = true → (strEndsWith f.name ".gfa" || strEndsWith f.name ".gfa.gz") = true →
      f.content.data = 'H' :: l →
      ((vnTag f.content = .ok (some (.pyStr "1.0")) → get_gfa_format f = .ok "GFA1") ∧
       (vnTag f.content = .ok (some (.pyStr "1.1")) → get_gfa_format f = .ok "GFA1.1") ∧
       (vnTag f.content = .ok (some (.pyStr "1.2")) → get_gfa_format f = .ok "GFA1.2") ∧
       (vnTag f.content = .ok (some (.pyStr "2.0")) → get_gfa_format f = .ok "GFA2") ∧
       (∀ v, vnTag f.content = .ok (some v) →
         pyEqStr v "1.0" = false → pyEqStr v "1.1" = false →
         pyEqStr v "1.2" = false → pyEqStr v "2.0" = false →
         get_gfa_format f = .ok "unknown"))) ∧
    (∀ g : FSFile, f.onDisk = true → g.onDisk = true → f.name = g.name →
      f.content ≠ "" → g.content ≠ "" → firstLine f.content = firstLine g.content →
      get_gfa_format f = get_gfa_format g) := by
  have hne_of_data : ∀ (s : String) (c : Char) (l : List Char), s.data = c :: l → s ≠ "" := by
    intro s c l hd he
    rw [he] at hd
    exact List.noConfusion hd
  refine ⟨?_, ?_, ?_, ?_, ?_, ?_⟩
  · intro h
    unfold get_gfa_format
    rw [h]
    rfl
  · intro h1 h2
    unfold get_gfa_format
    rw [h1, h2]
    rfl
  · intro h1 h2 h3
    unfold get_gfa_format
    rw [h1, h2, if_pos h3]
    rfl
  · intro c l h1 h2 hdata hc
    rw [get_gfa_format_eval f h1 h2 (hne_of_data _ _ _ hdata) hdata, if_pos hc]
  · intro l h1 h2 hdata
    have hbase := get_gfa_format_eval f h1 h2 (hne_of_data _ _ _ hdata) hdata
    rw [if_neg (fun hne => hne rfl)] at hbase
    refine ⟨?_, ?_, ?_, ?_, ?_⟩
    · intro hvn
      rw [hbase, hvn]
      rfl
    · intro hvn
      rw [hbase, hvn]
      rfl
    · intro hvn
      rw [hbase, hvn]
      rfl
    · intro hvn
      rw [hbase, hvn]
      rfl
    · intro v hvn e1 e2 e3 e4
      rw [hbase, hvn]
      show (if pyEqStr v "1.0" then _ else _) = Except.ok "unknown"
      rw [if_neg (by rw [e1]; exact fun hf => Bool.noConfusion hf),
        if_neg (by rw [e2]; exact fun hf => Bool.noConfusion hf),
        if_neg (by rw [e3]; exact fun hf => Bool.noConfusion hf),
        if_neg (by rw [e4]; exact fun hf => Bool.noConfusion hf)]
  · intro g h1 h2 hname hc1 hc2 hfl
    obtain ⟨a, l1, d1⟩ : ∃ a l1, f.content.data = a :: l1 := by
      cases hd : f.content.data with
      | nil => exact absurd (str_eq_empty_of_data hd) hc1
      | cons a l1 => exact ⟨a, l1, rfl⟩
    obtain ⟨b, l2, d2⟩ : ∃ b l2, g.content.data = b :: l2 := by
      cases hd : g.content.data with
      | nil => exact absurd (str_eq_empty_of_data hd) hc2
      | cons b l2 => exact ⟨b, l2, rfl⟩
    have hhead : a = b := by
      have := head_eq_of_firstLine_eq hfl hc1 hc2
      rw [d1, d2] at this
      injection this
    by_cases hsuf : (strEndsWith f.name ".gfa" || strEndsWith f.name ".gfa.gz") = true
    · have hsuf2 : (strEndsWith g.name ".gfa" || strEndsWith g.name ".gfa.gz") = true := by
        rw [← hname]
        exact hsuf
      have hvneq : vnTag f.content = vnTag g.content := by
        unfold vnTag
        rw [hfl]
      rw [get_gfa_format_eval f h1 hsuf hc1 d1, get_gfa_format_eval g h2 hsuf2 hc2 d2,
        hhead, hvneq]
    · have hsuf2 : ¬((strEndsWith g.name ".gfa" || strEndsWith g.name ".gfa.gz") = true) := by
        rw [← hname]
        exact hsuf
      rw [Bool.not_eq_true] at hsuf hsuf2
      unfold get_gfa_format
      rw [h1, h2, hsuf, hsuf2]
      rfl

/-- Witness for C6: a concrete present `.gfa` file whose header carries
`VN:Z:1.1` is classified GFA1.1. -/
theorem C6_witness :
    get_gfa_format ⟨true, "graph.gfa", "H\tVN:Z:1.1\nS\t1\tAAA\n"⟩ = .ok "GFA1.1" :=
  ((C6_format_detector ⟨true, "graph.gfa", "H\tVN:Z:1.1\nS\t1\tAAA\n"⟩).2.2.2.2.1
    _ rfl (by decide) rfl).2.1 rfl

end Gfa

namespace Gfagraphs

theorem parseWaypoints_ok (ts : List String)
    (h : ∀ t ∈ ts, t.data.getLast? = some '+' ∨ t.data.getLast? = some '-'
      ∨ t.data.getLast? = some '?') :
    ∃ wps, parseWaypoints ts = .ok wps := by
  induction ts with
  | nil => exact ⟨[], rfl⟩
  | cons t rest ih =>
    obtain ⟨wtl, hwtl⟩ := ih (fun x hx => h x (List.mem_cons_of_mem _ hx))
    rcases h t (List.mem_cons_self _ _) with hc | hc | hc
    · exact ⟨(⟨t.data.dropLast⟩, .forward) :: wtl, by
        unfold parseWaypoints
        rw [hc, hwtl]
        rfl⟩
    · exact ⟨(⟨t.data.dropLast⟩, .reverse) :: wtl, by
        unfold parseWaypoints
        rw [hc, hwtl]
        rfl⟩
    · exact ⟨(⟨t.data.dropLast⟩, .unknown) :: wtl, by
        unfold parseWaypoints
        rw [hc, hwtl]
        rfl⟩

/-- Claim C9: a P-line parsed against a declared rGFA dialect raises the
format error, whose message names both the line kind (`P-lines`) and the
dialect (`RGFA`); the same line parsed against GFA1 succeeds.  A "P-line" is a
line whose walk tokens each end in a valid orientation character and whose
optional fields decode. -/
theorem C9_pline_dialect (datas : List String) (d0 d1 d2 : String) (rest : List String)
    (hd : datas = d0 :: d1 :: d2 :: rest)
    (hwalk : ∀ t ∈ Gfa.splitCh ',' d2,
      t.data.getLast? = some '+' ∨ t.data.getLast? = some '-' ∨ t.data.getLast? = some '?')
    (htags : ∃ m, Gfa.supplementary_datas datas 7 = .ok m) :
    path datas .rgfa = .error (.valueError (pLineMsg .rgfa)) ∧
    (∃ r, path datas .gfa1 = .ok r) ∧
    "P-lines".data <:+: (pLineMsg .rgfa).data ∧
    "RGFA".data <:+: (pLineMsg .rgfa).data := by
  refine ⟨rfl, ?_,
    ⟨"Incompatible version format, ".data,
      " vere added in GFA1 and were absent from GfaStyle.RGFA.".data, by rfl⟩,
    ⟨"Incompatible version format, P-lines vere added in GFA1 and were absent from GfaStyle.".data,
      ".".data, by rfl⟩⟩
  obtain ⟨wps, hwps⟩ := parseWaypoints_ok _ hwalk
  obtain ⟨m, hm⟩ := htags
  subst hd
  refine ⟨⟨d1, wps, m⟩, ?_⟩
  unfold path
  rw [if_neg (by decide)]
  show (match parseWaypoints (Gfa.splitCh ',' d2) with
    | .error e => Except.error e
    | .ok w =>
      match Gfa.supplementary_datas (d0 :: d1 :: d2 :: rest) 7 with
      | .error e => Except.error e
      | .ok tags => Except.ok (⟨d1, w, tags⟩ : PathData))
    = Except.ok (⟨d1, wps, m⟩ : PathData)
  rw [hwps, hm]

/-- Witness for C9 at the concrete P-line `P p1 1+,2+ *`. -/
theorem C9_witness :
    path ["P", "p1", "1+,2+", "*"] .rgfa = .error (.valueError (pLineMsg .rgfa)) ∧
    (∃ r, path ["P", "p1", "1+,2+", "*"] .gfa1 = .ok r) :=
  have h := C9_pline_dialect ["P", "p1", "1+,2+", "*"] "P" "p1" "1+,2+" ["*"]
    rfl (by decide) ⟨[], rfl⟩
  ⟨h.1, h.2.1⟩

end Gfagraphs


/-- C1: the spec claims the path-closure invariant (every segment id
referenced by a path waypoint exists in the segment collection) is preserved
by every Editor operation.  `merge_segments` violates it: on Scenario 1 the
invariant holds before the call, the call returns normally, and afterwards
path `p1` still references the removed segments `1` and `2`, which no longer
exist. -/
theorem PgGraphs.C1_merge_breaks_path_closure :
    PgGraphs.pathRefsClosed PgGraphs.scenario1 = true ∧
    PgGraphs.merge_segments PgGraphs.scenario1 ["1", "2"] "12" =
      Except.ok PgGraphs.scenario1Merged ∧
    PgGraphs.pathRefsClosed PgGraphs.scenario1Merged = false :=
  ⟨rfl, rfl, rfl⟩

/-- C2: on Scenario 1, `merge_segments("1","2",merge_name="12")` does create
segment `12` with sequence `AAACCC`, but — contrary to the claim — the edge
`(1, 2)` between the merged members survives, and path `p1` is left as
`[(1,+),(2,+)]` instead of becoming `[(12,+)]`. -/
theorem PgGraphs.C2_merge_scenario1_diverges :
    PgGraphs.merge_segments PgGraphs.scenario1 ["1", "2"] "12" =
      Except.ok PgGraphs.scenario1Merged ∧
    PgGraphs.alistGet PgGraphs.scenario1Merged.segments "12" =
      some ⟨some "AAACCC", 6, none⟩ ∧
    PgGraphs.alistGet PgGraphs.scenario1Merged.lines ("1", "2") =
      some ⟨[(.forward, .forward)], none, none⟩ ∧
    (PgGraphs.alistGet PgGraphs.scenario1Merged.paths "p1").map PgGraphs.PathDatas.path =
      some [.pair "1" .forward, .pair "2" .forward] ∧
    ¬ (PgGraphs.alistGet PgGraphs.scenario1Merged.paths "p1").map PgGraphs.PathDatas.path =
      some [.pair "12" .forward] :=
  ⟨rfl, rfl, rfl, rfl, by decide⟩

/-- C3: the claimed split/merge round trip never starts: on a graph holding
only segment `s` = `AC` (n = 2, k = 1), `split_segments("s", ["a","b"],
[(0,1),(1,2)])` raises NameError — with no incident edges the loop that would
bind `orient` never runs, and the first `add_edge` call evaluates the unbound
name — so no split graph is ever produced and the subsequent merge is
unreachable. -/
theorem PgGraphs.C3_split_raises_before_merge :
    PgGraphs.alistGet PgGraphs.scenario3.segments "s" = some ⟨some "AC", 2, none⟩ ∧
    PgGraphs.split_segments PgGraphs.scenario3 "s" ["a", "b"] [(0, 1), (1, 2)] =
      Except.error Gfa.PyErr.nameError :=
  ⟨rfl, rfl⟩

/-- C7: `sequence_offsets` does record, per segment, a path-id-indexed list
of `(local-start, local-end, orientation)` triples with one triple appended
per occurrence — but the running offset does NOT start from the path's
declared start offset: the guard `isinstance(start_offset, int) is None`
compares a bool to `None` and is always false, so the offset always starts
at 0.  On `scenario7` (declared start 5) segment `s` receives
`[(0,3,+),(5,8,+)]` instead of the claimed `[(5,8,+),(10,13,+)]`. -/
theorem PgGraphs.C7_offsets_ignore_declared_start :
    (PgGraphs.alistGet PgGraphs.scenario7.paths "w").map PgGraphs.PathDatas.start_offset =
      some (.intV 5) ∧
    PgGraphs.sequence_offsets PgGraphs.scenario7 false = Except.ok PgGraphs.scenario7PO ∧
    PgGraphs.alistGet PgGraphs.scenario7PO.segments "s" =
      some ⟨some "AAA", 3, some [("w", [(0, 3, "+"), (5, 8, "+")])]⟩ ∧
    ¬ PgGraphs.alistGet PgGraphs.scenario7PO.segments "s" =
      some ⟨some "AAA", 3, some [("w", [(5, 8, "+"), (10, 13, "+")])]⟩ :=
  ⟨rfl, rfl, rfl, by decide⟩

/-- C8: idempotence of `sequence_offsets`.  Whenever a call returns normally
it ends with `metadata['PO'] = True`, and a second call without `recalculate`
then skips the whole computation (`if not 'PO' in self.metadata or
recalculate` is false), leaving every recorded offset mapping — indeed the
whole graph — unchanged. -/
theorem PgGraphs.C8_sequence_offsets_idempotent
    (g : PgGraphs.Graph) (r : Bool) (g2 : PgGraphs.Graph)
    (h : PgGraphs.sequence_offsets g r = Except.ok g2) :
    PgGraphs.sequence_offsets g2 false = Except.ok g2 := by
  have hflag : g2.poFlag = true := by
    unfold PgGraphs.sequence_offsets at h
    by_cases hb : (!g.poFlag || r) = true
    · rw [if_pos hb] at h
      cases hseq : PgGraphs.seqOffsetsPaths g.paths g.segments with
      | error e => rw [hseq] at h; exact Except.noConfusion h
      | ok segs2 =>
        rw [hseq] at h
        have h2 := Except.ok.inj h
        rw [← h2]
    · rw [if_neg hb] at h
      have h2 := Except.ok.inj h
      rw [← h2]
  have h3 : ({g2 with poFlag := true} : PgGraphs.Graph) = g2 := by
    rw [← hflag]
  unfold PgGraphs.sequence_offsets
  rw [hflag]
  rw [if_neg (by decide : ¬ ((!true || false) = true))]
  rw [h3]

/-- Witness for C8 at a concrete input: on `scenario7` the first call yields
`scenario7PO`, and a second call is the identity on it. -/
theorem PgGraphs.C8_witness :
    PgGraphs.sequence_offsets PgGraphs.scenario7PO false = Except.ok PgGraphs.scenario7PO :=
  PgGraphs.C8_sequence_offsets_idempotent PgGraphs.scenario7 false PgGraphs.scenario7PO rfl

namespace PgGraphs

/-- Header lines are never path lines. -/
theorem filter_path_hlines (l : List (List (String × Gfa.PyVal))) :
    (l.map (fun _ => OutLine.hline)).filter isPathLine = [] := by
  induction l with
  | nil => rfl
  | cons a t ih => simp [isPathLine, ih]

/-- Segment lines are never path lines. -/
theorem filter_path_slines (l : List (String × SegDatas)) :
    (l.map (fun sg => OutLine.sline sg.1)).filter isPathLine = [] := by
  induction l with
  | nil => rfl
  | cons a t ih => simpa [isPathLine] using ih

/-- The `L` lines of one edge are never path lines. -/
theorem filter_path_llines_one (a b : String) (l : List (Orientation × Orientation)) :
    (l.map (fun alt => OutLine.lline a b alt)).filter isPathLine = [] := by
  induction l with
  | nil => rfl
  | cons x t ih => simpa [isPathLine] using ih

/-- Link lines are never path lines. -/
theorem filter_path_llines (l : List ((String × String) × EdgeDatas)) :
    ((l.map (fun e => e.2.orientation.map (fun alt => OutLine.lline e.1.1 e.1.2 alt))).flatten).filter
      isPathLine = [] := by
  induction l with
  | nil => rfl
  | cons a t ih =>
    simp only [List.map_cons, List.flatten_cons, List.filter_append, ih,
      filter_path_llines_one, List.append_nil]

/-- Every `P` line is a path line. -/
theorem filter_path_plines (l : List (String × PathDatas)) :
    (l.map (fun pr => OutLine.pline pr.1 pr.2.path)).filter isPathLine =
      l.map (fun pr => OutLine.pline pr.1 pr.2.path) := by
  induction l with
  | nil => rfl
  | cons a t ih => simpa [isPathLine] using ih

end PgGraphs


/-- C10: for a graph whose `metadata['version']` is a plain string — which is
what `Graph.__init__` always stores (the detector's text, or `'unknown'`) —
`save_graph` without a forced format writes no `P` line and no `W` line,
whatever that string is: `gfa_format` is then the string itself, and a string
never equals a `GFAFormat` enum member, so both path branches are dead.
Forcing a format (here `GFA1`) makes the paths survive, one `P` line per
path. -/
theorem PgGraphs.C10_unforced_save_drops_paths
    (g : PgGraphs.Graph) (s : String) (m : Bool)
    (hv : g.version = .vstr s) :
    (∃ out, PgGraphs.save_graph g m none = Except.ok out ∧
      out.filter PgGraphs.isPathLine = []) ∧
    (∃ out, PgGraphs.save_graph g m (some .gfa1) = Except.ok out ∧
      out.filter PgGraphs.isPathLine =
        g.paths.map (fun pr => PgGraphs.OutLine.pline pr.1 pr.2.path)) := by
  constructor
  · have hbase : PgGraphs.save_graph g m none =
        (match PgGraphs.pathSection g.version g.segments g.paths with
        | .error e => .error e
        | .ok pl => .ok
          ((if !g.headers.isEmpty && !PgGraphs.fmtEq g.version .rgfa then
              g.headers.map (fun _ => PgGraphs.OutLine.hline) else []) ++
            g.segments.map (fun sg => PgGraphs.OutLine.sline sg.1) ++
            ((g.lines.map (fun e =>
              e.2.orientation.map (fun alt => PgGraphs.OutLine.lline e.1.1 e.1.2 alt))).flatten) ++
            pl)) := rfl
    rw [hv] at hbase
    rw [show PgGraphs.pathSection (PgGraphs.FormatVal.vstr s) g.segments g.paths =
      Except.ok [] from rfl] at hbase
    rw [hbase]
    refine ⟨_, rfl, ?_⟩
    by_cases hc : (!g.headers.isEmpty && !PgGraphs.fmtEq (.vstr s) .rgfa) = true
    · rw [if_pos hc]
      simp only [List.filter_append, PgGraphs.filter_path_hlines,
        PgGraphs.filter_path_slines, PgGraphs.filter_path_llines,
        List.filter_nil, List.append_nil]
    · rw [if_neg hc]
      simp only [List.nil_append, List.filter_append, PgGraphs.filter_path_slines,
        PgGraphs.filter_path_llines, List.filter_nil, List.append_nil]
  · have hbase : PgGraphs.save_graph g m (some .gfa1) =
        Except.ok
          ((if !g.headers.isEmpty && !PgGraphs.fmtEq (.vfmt .gfa1) .rgfa then
              g.headers.map (fun _ => PgGraphs.OutLine.hline) else []) ++
            g.segments.map (fun sg => PgGraphs.OutLine.sline sg.1) ++
            ((g.lines.map (fun e =>
              e.2.orientation.map (fun alt => PgGraphs.OutLine.lline e.1.1 e.1.2 alt))).flatten) ++
            g.paths.map (fun pr => PgGraphs.OutLine.pline pr.1 pr.2.path)) := rfl
    rw [hbase]
    refine ⟨_, rfl, ?_⟩
    by_cases hc : (!g.headers.isEmpty && !PgGraphs.fmtEq (.vfmt .gfa1) .rgfa) = true
    · rw [if_pos hc]
      simp only [List.filter_append, PgGraphs.filter_path_hlines,
        PgGraphs.filter_path_slines, PgGraphs.filter_path_llines,
        PgGraphs.filter_path_plines, List.nil_append, List.append_nil]
    · rw [if_neg hc]
      simp only [List.nil_append, List.filter_append, PgGraphs.filter_path_slines,
        PgGraphs.filter_path_llines, PgGraphs.filter_path_plines, List.append_nil]

/-- Witness for C10 on Scenario 1 (detected version string `GFA1`): saving
without a forced format emits no path line. -/
theorem PgGraphs.C10_witness :
    ∃ out, PgGraphs.save_graph PgGraphs.scenario1 false none = Except.ok out ∧
      out.filter PgGraphs.isPathLine = [] :=
  (PgGraphs.C10_unforced_save_drops_paths PgGraphs.scenario1 "GFA1" false rfl).1
